import Mathlib

/-!
Verification of the TimberGem symbol-detection core against its
natural-language specification.

The Python modules under `backend/utils/` are embedded shallowly:

* `coordinate_mapping.py` — coordinate records and the
  `CoordinateTransformer` conversions (exact rational arithmetic stands in
  for Python floats; `int()` truncation is modelled by `pyInt`).
* `symbol_detection/detection_algorithm.py` — the two-stage detection
  pipeline.  External image operators (Canny edge maps,
  `cv2.matchTemplate` scores) are parameters of the embedding; only their
  array shapes, which the code relies on, are fixed.
* `symbol_detection/detection_storage.py` — the persisted run state and
  its editing operations, with wall-clock timestamps passed explicitly.
* `symbol_detection/detection_progress.py` — the progress ledger.
* `symbol_detection/detection_coordinator.py` — the run orchestration,
  with the fallible environment steps (file loads, per-page detection)
  given as explicit outcome inputs.
-/

namespace Timbergem

/-! ## Coordinate mapping (`coordinate_mapping.py`) -/

/-- `PDFCoordinates`: points (72 DPI), top-left origin. -/
structure PDFCoordinates where
  left : ℚ
  top : ℚ
  width : ℚ
  height : ℚ
deriving Repr, DecidableEq

/-- `ImageCoordinates`: integer pixels at a specific DPI, top-left origin. -/
structure ImageCoordinates where
  left : ℤ
  top : ℤ
  width : ℤ
  height : ℤ
  dpi : ℤ
deriving Repr, DecidableEq

/-- `PageMetadata`: page properties used by the transformer. -/
structure PageMetadata where
  page_number : ℤ
  pdf_width_points : ℚ
  pdf_height_points : ℚ
  pdf_rotation_degrees : ℤ
  image_width_pixels : ℤ
  image_height_pixels : ℤ
  image_dpi : ℤ
  high_res_image_width_pixels : ℤ
  high_res_image_height_pixels : ℤ
  high_res_dpi : ℤ
deriving Repr, DecidableEq

/-- Python `int(q)`: truncation toward zero. -/
def pyInt (q : ℚ) : ℤ := if 0 ≤ q then ⌊q⌋ else ⌈q⌉

/-- `CoordinateTransformer._calculate_pdf_to_image_scale`:
`image_dpi / 72.0`. -/
def pdf_to_image_scale (pm : PageMetadata) : ℚ := (pm.image_dpi : ℚ) / 72

/-- `CoordinateTransformer.pdf_to_image`: scale each field by
`image_dpi/72` and truncate with `int()`; the result carries the page's
standard `image_dpi`. -/
def pdf_to_image (pm : PageMetadata) (c : PDFCoordinates) : ImageCoordinates :=
  { left := pyInt (c.left * pdf_to_image_scale pm)
    top := pyInt (c.top * pdf_to_image_scale pm)
    width := pyInt (c.width * pdf_to_image_scale pm)
    height := pyInt (c.height * pdf_to_image_scale pm)
    dpi := pm.image_dpi }

/-- `CoordinateTransformer.image_to_pdf`: scale each field by
`72.0 / image_coords.dpi`.  The method is bound to a transformer built
from a `PageMetadata`, which it does not consult — the page argument is
kept to mirror the source. -/
def image_to_pdf (_pm : PageMetadata) (c : ImageCoordinates) : PDFCoordinates :=
  let points_per_pixel : ℚ := 72 / (c.dpi : ℚ)
  { left := (c.left : ℚ) * points_per_pixel
    top := (c.top : ℚ) * points_per_pixel
    width := (c.width : ℚ) * points_per_pixel
    height := (c.height : ℚ) * points_per_pixel }

/-- `validate_coordinates(coords, "pdf")`. -/
def validPdf (c : PDFCoordinates) : Prop :=
  0 < c.width ∧ 0 < c.height ∧ 0 ≤ c.left ∧ 0 ≤ c.top

instance (c : PDFCoordinates) : Decidable (validPdf c) := by
  unfold validPdf; infer_instance

/-- One field of the document→raster→document round trip: truncating at
scale `dpi/72` and scaling back loses less than one raster pixel, hence
less than `72/dpi` points. -/
theorem roundtrip_field_bound (x : ℚ) (dpi : ℤ) (hx : 0 ≤ x) (hdpi : 72 ≤ dpi) :
    |(pyInt (x * ((dpi : ℚ) / 72)) : ℚ) * (72 / (dpi : ℚ)) - x| ≤ 1 ∧
    |(pyInt (x * ((dpi : ℚ) / 72)) : ℚ) * (72 / (dpi : ℚ)) - x| * ((dpi : ℚ) / 72) ≤ 2 := by
  have hdpiQ : (72 : ℚ) ≤ (dpi : ℚ) := by exact_mod_cast hdpi
  set s : ℚ := (dpi : ℚ) / 72 with hs_def
  have hs : 0 < s := by positivity
  have hxs : 0 ≤ x * s := mul_nonneg hx hs.le
  have hpy : pyInt (x * s) = ⌊x * s⌋ := by simp [pyInt, hxs]
  have hinv : 72 / (dpi : ℚ) = 1 / s := by
    rw [hs_def]
    field_simp
  have hfl : (⌊x * s⌋ : ℚ) ≤ x * s := Int.floor_le _
  have hfu : x * s < (⌊x * s⌋ : ℚ) + 1 := Int.lt_floor_add_one _
  have hle : (⌊x * s⌋ : ℚ) * (1 / s) ≤ x := by
    rw [mul_one_div, div_le_iff₀ hs]
    exact hfl
  have hlt : x - (⌊x * s⌋ : ℚ) * (1 / s) < 1 / s := by
    rw [lt_div_iff₀ hs, sub_mul, mul_one_div, div_mul_cancel₀ _ hs.ne']
    linarith
  have habs : |(pyInt (x * s) : ℚ) * (72 / (dpi : ℚ)) - x| =
      x - (⌊x * s⌋ : ℚ) * (1 / s) := by
    rw [hpy, hinv, abs_sub_comm, abs_of_nonneg (by linarith)]
  constructor
  · rw [habs]
    have hs1 : 1 ≤ s := by
      rw [hs_def, le_div_iff₀ (by norm_num : (0:ℚ) < 72)]
      linarith
    have h1 : 1 / s ≤ 1 := by
      rw [div_le_one hs]
      exact hs1
    linarith
  · rw [habs]
    have : (x - (⌊x * s⌋ : ℚ) * (1 / s)) * s < (1 / s) * s :=
      mul_lt_mul_of_pos_right hlt hs
    rw [one_div_mul_cancel hs.ne'] at this
    linarith

/-- C1 (amended): for a valid `PDFCoordinates` and a page whose standard
raster DPI is at least 72 (so one raster pixel is at most one point), the
document→raster→raster→document round trip moves each of the four fields
by at most one point and at most two raster pixels. -/
theorem c1_pdf_image_roundtrip (pm : PageMetadata) (d : PDFCoordinates)
    (hd : validPdf d) (hdpi : 72 ≤ pm.image_dpi) :
    let r := image_to_pdf pm (pdf_to_image pm d)
    (|r.left - d.left| ≤ 1 ∧ |r.left - d.left| * ((pm.image_dpi : ℚ) / 72) ≤ 2) ∧
    (|r.top - d.top| ≤ 1 ∧ |r.top - d.top| * ((pm.image_dpi : ℚ) / 72) ≤ 2) ∧
    (|r.width - d.width| ≤ 1 ∧ |r.width - d.width| * ((pm.image_dpi : ℚ) / 72) ≤ 2) ∧
    (|r.height - d.height| ≤ 1 ∧ |r.height - d.height| * ((pm.image_dpi : ℚ) / 72) ≤ 2) := by
  obtain ⟨hw, hh, hl, ht⟩ := hd
  refine ⟨?_, ?_, ?_, ?_⟩
  · exact roundtrip_field_bound d.left pm.image_dpi hl hdpi
  · exact roundtrip_field_bound d.top pm.image_dpi ht hdpi
  · exact roundtrip_field_bound d.width pm.image_dpi hw.le hdpi
  · exact roundtrip_field_bound d.height pm.image_dpi hh.le hdpi

/-- Concrete page geometry at the standard 150 DPI. -/
def pm150 : PageMetadata :=
  { page_number := 1, pdf_width_points := 612, pdf_height_points := 792
    pdf_rotation_degrees := 0, image_width_pixels := 1275
    image_height_pixels := 1650, image_dpi := 150
    high_res_image_width_pixels := 2550, high_res_image_height_pixels := 3300
    high_res_dpi := 300 }

theorem c1_pdf_image_roundtrip_witness :
    validPdf ⟨1/2, 3, 5, 7⟩ ∧ 72 ≤ pm150.image_dpi ∧
    (let r := image_to_pdf pm150 (pdf_to_image pm150 ⟨1/2, 3, 5, 7⟩)
     (|r.left - (1/2 : ℚ)| ≤ 1 ∧ |r.left - (1/2 : ℚ)| * ((pm150.image_dpi : ℚ) / 72) ≤ 2) ∧
     (|r.top - (3 : ℚ)| ≤ 1 ∧ |r.top - (3 : ℚ)| * ((pm150.image_dpi : ℚ) / 72) ≤ 2) ∧
     (|r.width - (5 : ℚ)| ≤ 1 ∧ |r.width - (5 : ℚ)| * ((pm150.image_dpi : ℚ) / 72) ≤ 2) ∧
     (|r.height - (7 : ℚ)| ≤ 1 ∧ |r.height - (7 : ℚ)| * ((pm150.image_dpi : ℚ) / 72) ≤ 2)) :=
  ⟨by norm_num [validPdf], by norm_num [pm150],
   c1_pdf_image_roundtrip pm150 ⟨1/2, 3, 5, 7⟩ (by norm_num [validPdf]) (by norm_num [pm150])⟩

/-- Page geometry with a positive but sub-72 standard DPI. -/
def pm36 : PageMetadata :=
  { page_number := 1, pdf_width_points := 612, pdf_height_points := 792
    pdf_rotation_degrees := 0, image_width_pixels := 306
    image_height_pixels := 396, image_dpi := 36
    high_res_image_width_pixels := 2550, high_res_image_height_pixels := 3300
    high_res_dpi := 300 }

/-- C1 fails as stated: with every DPI positive (36 standard, 300
high-res) and a valid input, the round trip moves `left` by 1.9 points,
more than the claimed one-point tolerance. -/
theorem c1_counterexample :
    validPdf ⟨19/10, 0, 2, 2⟩ ∧ 0 < pm36.image_dpi ∧ 0 < pm36.high_res_dpi ∧
    1 < |(image_to_pdf pm36 (pdf_to_image pm36 ⟨19/10, 0, 2, 2⟩)).left - (19/10 : ℚ)| := by
  refine ⟨by norm_num [validPdf], by norm_num [pm36], by norm_num [pm36], ?_⟩
  have h0 : (image_to_pdf pm36 (pdf_to_image pm36 ⟨19/10, 0, 2, 2⟩)).left = 0 := by
    norm_num [image_to_pdf, pdf_to_image, pyInt, pdf_to_image_scale, pm36]
  rw [h0, zero_sub, abs_neg, abs_of_nonneg (by norm_num : (0:ℚ) ≤ 19/10)]
  norm_num

/-! ## Detection algorithm (`symbol_detection/detection_algorithm.py`)

The image operators supplied by OpenCV are parameters of the embedding:
`sourceEdges` stands for the Canny edge map of the page pixmap (same
dimensions as the pixmap), `score v (x, y)` for the value of
`cv2.matchTemplate(source_edges, template_edges, TM_CCOEFF_NORMED)` at
position `(x, y)` for variation `v`, and `templates v` for the edge map
of the scaled-and-rotated template of variation `v = (w, h, angle)`
(an array of shape `(h, w)`).  The code relies only on the documented
array shapes: a match result for a `w×h` template over a `W×H` source is
defined exactly on `0 ≤ x ≤ W - w`, `0 ≤ y ≤ H - h` (and
`cv2.matchTemplate` raises when the template exceeds the source, which
the `except` branch turns into "no candidates for this variation"). -/

/-- One raw entry of `all_detections_raw`:
`{"point": (x, y), "confidence": c, "size": (w, h), "angle": a}`. -/
structure RawDetection where
  point : ℕ × ℕ
  confidence : ℚ
  size : ℕ × ℕ
  angle : ℤ
deriving Repr, DecidableEq

/-- Squared Euclidean distance between two match points (the code squares
integer differences before taking `np.sqrt`). -/
def distSq (p q : ℕ × ℕ) : ℤ :=
  ((p.1 : ℤ) - q.1) ^ 2 + ((p.2 : ℤ) - q.2) ^ 2

/-- `np.sqrt(distSq) < min_distance` for the nonnegative threshold the
code uses, expressed on squares to stay in ℚ. -/
def isCloseTo (min_distance : ℚ) (p q : ℕ × ℕ) : Bool :=
  decide ((distSq p q : ℚ) < min_distance * min_distance)

/-- `SymbolDetectionAlgorithm._group_close_points`: stable sort by
confidence descending (Python's `list.sort(key=..., reverse=True)`), then
greedily keep each entry unless it is close to an already-kept entry. -/
def group_close_points (points_data : List RawDetection) (min_distance : ℚ) :
    List RawDetection :=
  let sorted := points_data.mergeSort (fun a b => decide (b.confidence ≤ a.confidence))
  sorted.foldl
    (fun unique_detections data =>
      if unique_detections.any (fun u => isCloseTo min_distance data.point u.point) then
        unique_detections
      else
        unique_detections ++ [data])
    []

/-- `SymbolDetectionAlgorithm.NMS_DISTANCE_THRESHOLD`. -/
def NMS_DISTANCE_THRESHOLD : ℚ := 100

/-- `SymbolDetectionAlgorithm.DETECTION_DPI`. -/
def DETECTION_DPI : ℤ := 300

/-- `SymbolDetectionAlgorithm._generate_candidates`: for every template
variation, collect every grid position whose correlation score reaches
the match threshold (row-major, as `np.where` yields), then deduplicate
with `_group_close_points`. -/
def generate_candidates (sourceW sourceH : ℕ)
    (score : ℕ × ℕ × ℤ → ℕ × ℕ → ℚ) (variations : List (ℕ × ℕ × ℤ))
    (match_threshold : ℚ) : List RawDetection :=
  let all_detections_raw := variations.flatMap (fun v =>
    if v.1 ≤ sourceW ∧ v.2.1 ≤ sourceH then
      (List.range (sourceH - v.2.1 + 1)).flatMap (fun y =>
        (List.range (sourceW - v.1 + 1)).filterMap (fun x =>
          if match_threshold ≤ score v (x, y) then
            some { point := (x, y), confidence := score v (x, y)
                   size := (v.1, v.2.1), angle := v.2.2 }
          else none))
    else [])
  group_close_points all_detections_raw NMS_DISTANCE_THRESHOLD

/-- One entry of `verified_candidates`. -/
structure VerifiedCandidate where
  candidate_id : ℕ
  x : ℕ
  y : ℕ
  width : ℕ
  height : ℕ
  match_confidence : ℚ
  iou_score : ℚ
  matched_angle : ℤ
  status : String
deriving Repr, DecidableEq

/-- Number of `true` cells in a `w×h` boolean grid. -/
def countGrid (w h : ℕ) (f : ℕ → ℕ → Bool) : ℕ :=
  ((List.range h).map (fun y => ((List.range w).filter (fun x => f x y)).length)).sum

/-- `SymbolDetectionAlgorithm._verify_shape_iou` on boolean edge maps:
reject on shape mismatch or empty union, otherwise compare
intersection-over-union with the threshold. -/
def verify_shape_iou (clipH clipW : ℕ) (clip : ℕ → ℕ → Bool)
    (tH tW : ℕ) (template_edges : ℕ → ℕ → Bool) (threshold : ℚ) : Bool × ℚ :=
  if clipH = tH ∧ clipW = tW then
    let inter := countGrid tW tH (fun x y => clip x y && template_edges x y)
    let union := countGrid tW tH (fun x y => clip x y || template_edges x y)
    if union = 0 then (false, 0)
    else
      let iou : ℚ := (inter : ℚ) / (union : ℚ)
      (decide (threshold ≤ iou), iou)
  else (false, 0)

/-- Shape of the numpy slice `source_edges[y:y+h, x:x+w]` over an `H×W`
array: indices are clamped to the array bounds. -/
def sliceShape (H W y x h w : ℕ) : ℕ × ℕ :=
  (min (y + h) H - y, min (x + w) W - x)

/-- `SymbolDetectionAlgorithm._verify_candidates_iou`: for each
enumerated candidate, slice the source edge map at the candidate's box
and keep the candidate when `_verify_shape_iou` accepts it. -/
def verify_candidates_iou (sourceW sourceH : ℕ) (sourceEdges : ℕ → ℕ → Bool)
    (candidates : List RawDetection) (templates : ℕ × ℕ × ℤ → ℕ → ℕ → Bool)
    (iou_threshold : ℚ) : List VerifiedCandidate :=
  candidates.enum.filterMap (fun ic =>
    let i := ic.1
    let c := ic.2
    let x := c.point.1
    let y := c.point.2
    let w := c.size.1
    let h := c.size.2
    let shape := sliceShape sourceH sourceW y x h w
    let r := verify_shape_iou shape.1 shape.2
      (fun dx dy => sourceEdges (x + dx) (y + dy)) h w
      (templates (w, h, c.angle)) iou_threshold
    if r.1 then
      some { candidate_id := i, x := x, y := y, width := w, height := h
             match_confidence := c.confidence, iou_score := r.2
             matched_angle := c.angle, status := "pending" }
    else none)

/-- `DetectionCandidate`. -/
structure DetectionCandidate where
  candidate_id : ℕ
  image_coords : ImageCoordinates
  pdf_coords : PDFCoordinates
  match_confidence : ℚ
  iou_score : ℚ
  matched_angle : ℤ
  template_size : ℕ × ℕ
  status : String
deriving Repr, DecidableEq

/-- `SymbolDetectionAlgorithm._transform_to_pdf_coordinates`: wrap each
verified candidate's box as `ImageCoordinates` at `DETECTION_DPI` and
convert with `CoordinateTransformer.image_to_pdf`. -/
def transform_to_pdf_coordinates (candidates : List VerifiedCandidate)
    (pm : PageMetadata) : List DetectionCandidate :=
  candidates.map (fun c =>
    let detection_image_coords : ImageCoordinates :=
      { left := c.x, top := c.y, width := c.width, height := c.height
        dpi := DETECTION_DPI }
    { candidate_id := c.candidate_id
      image_coords := detection_image_coords
      pdf_coords := image_to_pdf pm detection_image_coords
      match_confidence := c.match_confidence
      iou_score := c.iou_score
      matched_angle := c.matched_angle
      template_size := (c.width, c.height)
      status := c.status })

/-- `SymbolDetectionAlgorithm.detect_symbol_on_page`, stages 4–6 (the
input validation and template-variation synthesis feed in through
`variations`/`templates`/`score`). -/
def detect_symbol_on_page (sourceW sourceH : ℕ) (sourceEdges : ℕ → ℕ → Bool)
    (score : ℕ × ℕ × ℤ → ℕ × ℕ → ℚ) (variations : List (ℕ × ℕ × ℤ))
    (templates : ℕ × ℕ × ℤ → ℕ → ℕ → Bool)
    (match_threshold iou_threshold : ℚ) (pm : PageMetadata) :
    List DetectionCandidate :=
  transform_to_pdf_coordinates
    (verify_candidates_iou sourceW sourceH sourceEdges
      (generate_candidates sourceW sourceH score variations match_threshold)
      templates iou_threshold)
    pm

/-! ### Deduplication (`_group_close_points`) — C3 -/

/-- The greedy NMS step of `_group_close_points`. -/
def nmsStep (min_distance : ℚ) (unique_detections : List RawDetection)
    (data : RawDetection) : List RawDetection :=
  if unique_detections.any (fun u => isCloseTo min_distance data.point u.point) then
    unique_detections
  else
    unique_detections ++ [data]

theorem group_close_points_eq_foldl (pts : List RawDetection) (thr : ℚ) :
    group_close_points pts thr =
      (pts.mergeSort (fun a b => decide (b.confidence ≤ a.confidence))).foldl
        (nmsStep thr) [] := rfl

theorem nms_foldl_split (thr : ℚ) :
    ∀ (l acc : List RawDetection),
      ∃ t, l.foldl (nmsStep thr) acc = acc ++ t ∧ t.Sublist l := by
  intro l
  induction l with
  | nil => exact fun acc => ⟨[], by simp⟩
  | cons d l ih =>
    intro acc
    by_cases h : acc.any (fun u => isCloseTo thr d.point u.point)
    · obtain ⟨t, ht, hsub⟩ := ih acc
      refine ⟨t, ?_, hsub.cons d⟩
      simpa [nmsStep, h] using ht
    · obtain ⟨t, ht, hsub⟩ := ih (acc ++ [d])
      refine ⟨d :: t, ?_, hsub.cons₂ d⟩
      simp only [List.foldl_cons, nmsStep, h, if_neg, Bool.false_eq_true,
        not_false_iff]
      simpa using ht

theorem nms_foldl_pairwise (thr : ℚ) :
    ∀ (l acc : List RawDetection),
      acc.Pairwise (fun a b => isCloseTo thr b.point a.point = false) →
      (l.foldl (nmsStep thr) acc).Pairwise
        (fun a b => isCloseTo thr b.point a.point = false) := by
  intro l
  induction l with
  | nil => exact fun acc h => h
  | cons d l ih =>
    intro acc hacc
    by_cases h : acc.any (fun u => isCloseTo thr d.point u.point)
    · simpa [nmsStep, h] using ih acc hacc
    · have hfar : ∀ u ∈ acc, isCloseTo thr d.point u.point = false := by
        intro u hu
        by_contra hne
        exact h (List.any_eq_true.mpr ⟨u, hu, by simpa using hne⟩)
      have : (acc ++ [d]).Pairwise
          (fun a b => isCloseTo thr b.point a.point = false) := by
        rw [List.pairwise_append]
        exact ⟨hacc, List.pairwise_singleton _ _, by simpa using hfar⟩
      simpa [nmsStep, h] using ih (acc ++ [d]) this

theorem nms_foldl_mem_acc (thr : ℚ) :
    ∀ (l acc : List RawDetection) (x : RawDetection),
      x ∈ acc → x ∈ l.foldl (nmsStep thr) acc := by
  intro l acc x hx
  obtain ⟨t, ht, -⟩ := nms_foldl_split thr l acc
  rw [ht]
  exact List.mem_append_left _ hx

theorem nms_foldl_complete (thr : ℚ) :
    ∀ (l acc : List RawDetection), ∀ c ∈ l,
      c ∈ l.foldl (nmsStep thr) acc ∨
        ∃ u ∈ l.foldl (nmsStep thr) acc, isCloseTo thr c.point u.point = true := by
  intro l
  induction l with
  | nil => simp
  | cons d l ih =>
    intro acc c hc
    by_cases h : acc.any (fun u => isCloseTo thr d.point u.point)
    · rcases List.mem_cons.mp hc with rfl | hcl
      · obtain ⟨u, hu, hclose⟩ := List.any_eq_true.mp h
        right
        refine ⟨u, ?_, by simpa using hclose⟩
        simp only [List.foldl_cons, nmsStep, h, if_pos]
        exact nms_foldl_mem_acc thr l acc u hu
      · have := ih acc c hcl
        simpa [nmsStep, h] using this
    · rcases List.mem_cons.mp hc with rfl | hcl
      · left
        simp only [List.foldl_cons, nmsStep, h, if_neg, Bool.false_eq_true,
          not_false_iff]
        exact nms_foldl_mem_acc thr l (acc ++ [c]) c
          (List.mem_append_right _ (List.mem_singleton.mpr rfl))
      · have := ih (acc ++ [d]) c hcl
        simpa [nmsStep, h] using this

/-- C3 (amended): deduplication stably sorts the raw candidates by
confidence descending and greedily keeps a candidate exactly when its
match point (the box's top-left corner, not its center) is at Euclidean
distance of at least the threshold from every already-kept candidate's
match point: the kept list is a subsequence of the sorted list which is
pairwise not-close, and every sorted candidate is either kept or close
to some kept candidate. -/
theorem c3_group_close_points_greedy (pts : List RawDetection) (thr : ℚ) :
    (group_close_points pts thr).Sublist
        (pts.mergeSort (fun a b => decide (b.confidence ≤ a.confidence))) ∧
    (pts.mergeSort (fun a b => decide (b.confidence ≤ a.confidence))).Pairwise
        (fun a b => b.confidence ≤ a.confidence) ∧
    (group_close_points pts thr).Pairwise
        (fun a b => isCloseTo thr b.point a.point = false) ∧
    (∀ c ∈ pts.mergeSort (fun a b => decide (b.confidence ≤ a.confidence)),
      c ∈ group_close_points pts thr ∨
        ∃ u ∈ group_close_points pts thr, isCloseTo thr c.point u.point = true) := by
  refine ⟨?_, ?_, ?_, ?_⟩
  · rw [group_close_points_eq_foldl]
    obtain ⟨t, ht, hsub⟩ := nms_foldl_split thr
      (pts.mergeSort (fun a b => decide (b.confidence ≤ a.confidence))) []
    rw [ht]
    simpa using hsub
  · have := @List.sorted_mergeSort RawDetection
      (fun a b : RawDetection => decide (b.confidence ≤ a.confidence))
      (fun a b c hab hbc => by
        simp only [decide_eq_true_eq] at *
        exact le_trans hbc hab)
      (fun a b => by
        simp only [Bool.or_eq_true, decide_eq_true_eq]
        exact le_total b.confidence a.confidence)
      pts
    exact this.imp (fun h => by simpa using h)
  · rw [group_close_points_eq_foldl]
    exact nms_foldl_pairwise thr _ [] (List.Pairwise.nil)
  · intro c hc
    rw [group_close_points_eq_foldl]
    exact nms_foldl_complete thr _ [] c hc

/-- Two concrete raw detections: the higher-confidence box is 10×10 at
(0, 0); the other is 20×20 at (99, 0). -/
def rawA : RawDetection := { point := (0, 0), confidence := 9/10, size := (10, 10), angle := 0 }

def rawB : RawDetection := { point := (99, 0), confidence := 8/10, size := (20, 20), angle := 0 }

/-- Center of a detection box as the claim reads it: match point plus
half the matched size. -/
def rawCenter (d : RawDetection) : ℚ × ℚ :=
  ((d.point.1 : ℚ) + (d.size.1 : ℚ) / 2, (d.point.2 : ℚ) + (d.size.2 : ℚ) / 2)

/-- Squared distance between two box centers. -/
def centerDistSq (a b : RawDetection) : ℚ :=
  ((rawCenter a).1 - (rawCenter b).1) ^ 2 + ((rawCenter a).2 - (rawCenter b).2) ^ 2

/-- C3 fails as stated: the code drops `rawB` because its top-left match
point is 99px from `rawA`'s, yet `rawB`'s center is more than 100px from
the center of every kept candidate (`rawA` alone), so the claimed
center-based keep-iff predicate says it should be kept. -/
theorem c3_counterexample :
    group_close_points [rawA, rawB] 100 = [rawA] ∧
    rawB ∉ group_close_points [rawA, rawB] 100 ∧
    (100 : ℚ) * 100 < centerDistSq rawB rawA := by
  have hsorted : [rawA, rawB].mergeSort
      (fun a b => decide (b.confidence ≤ a.confidence)) = [rawA, rawB] := by
    apply List.mergeSort_of_sorted
    simp [rawA, rawB]
    norm_num
  have hres : group_close_points [rawA, rawB] 100 = [rawA] := by
    rw [group_close_points_eq_foldl, hsorted]
    simp only [List.foldl_cons, List.foldl_nil, nmsStep]
    norm_num [isCloseTo, distSq, rawA, rawB]
  refine ⟨hres, ?_, ?_⟩
  · rw [hres]
    simp [rawA, rawB]
  · norm_num [centerDistSq, rawCenter, rawA, rawB]

/-! ### Candidate bounds (C10) and coordinate transformation (C2) -/

theorem mem_group_close_points (pts : List RawDetection) (thr : ℚ)
    (c : RawDetection) (hc : c ∈ group_close_points pts thr) : c ∈ pts := by
  rw [group_close_points_eq_foldl] at hc
  obtain ⟨t, ht, hsub⟩ := nms_foldl_split thr
    (pts.mergeSort (fun a b => decide (b.confidence ≤ a.confidence))) []
  rw [ht] at hc
  simp only [List.nil_append] at hc
  exact List.mem_mergeSort.mp (hsub.mem hc)

theorem mem_generate_candidates_bounds (sourceW sourceH : ℕ)
    (score : ℕ × ℕ × ℤ → ℕ × ℕ → ℚ) (variations : List (ℕ × ℕ × ℤ))
    (mt : ℚ) (c : RawDetection)
    (hc : c ∈ generate_candidates sourceW sourceH score variations mt) :
    c.point.1 + c.size.1 ≤ sourceW ∧ c.point.2 + c.size.2 ≤ sourceH := by
  have hraw := mem_group_close_points _ _ _ hc
  simp only [List.mem_flatMap] at hraw
  obtain ⟨v, -, hv⟩ := hraw
  by_cases hfit : v.1 ≤ sourceW ∧ v.2.1 ≤ sourceH
  · rw [if_pos hfit] at hv
    simp only [List.mem_flatMap, List.mem_filterMap, List.mem_range] at hv
    obtain ⟨y, hy, x, hx, hsome⟩ := hv
    by_cases hsc : mt ≤ score v (x, y)
    · rw [if_pos hsc] at hsome
      cases hsome
      constructor
      · show x + v.1 ≤ sourceW
        omega
      · show y + v.2.1 ≤ sourceH
        omega
    · rw [if_neg hsc] at hsome
      cases hsome
  · rw [if_neg hfit] at hv
    cases hv

theorem mem_verify_candidates (sourceW sourceH : ℕ)
    (sourceEdges : ℕ → ℕ → Bool) (cands : List RawDetection)
    (templates : ℕ × ℕ × ℤ → ℕ → ℕ → Bool) (it : ℚ) (vc : VerifiedCandidate)
    (hvc : vc ∈ verify_candidates_iou sourceW sourceH sourceEdges cands templates it) :
    ∃ c ∈ cands, vc.x = c.point.1 ∧ vc.y = c.point.2 ∧
      vc.width = c.size.1 ∧ vc.height = c.size.2 := by
  simp only [verify_candidates_iou, List.mem_filterMap] at hvc
  obtain ⟨ic, hmem, hsome⟩ := hvc
  have hc : ic.2 ∈ cands := by
    have := List.enum_map_snd cands
    rw [← this]
    exact List.mem_map_of_mem Prod.snd hmem
  refine ⟨ic.2, hc, ?_⟩
  by_cases hkeep : (verify_shape_iou
      (sliceShape sourceH sourceW ic.2.point.2 ic.2.point.1 ic.2.size.2 ic.2.size.1).1
      (sliceShape sourceH sourceW ic.2.point.2 ic.2.point.1 ic.2.size.2 ic.2.size.1).2
      (fun dx dy => sourceEdges (ic.2.point.1 + dx) (ic.2.point.2 + dy))
      ic.2.size.2 ic.2.size.1
      (templates (ic.2.size.1, ic.2.size.2, ic.2.angle)) it).1
  · simp only [hkeep, if_pos] at hsome
    cases hsome
    exact ⟨rfl, rfl, rfl, rfl⟩
  · simp only [hkeep, Bool.false_eq_true, if_neg, not_false_iff] at hsome
    cases hsome

/-- C10: every detection candidate produced by `detect_symbol_on_page`
lies entirely inside the page raster, and the IoU-verification slice of
every deduplicated candidate has exactly the template variant's shape. -/
theorem c10_detections_within_page (sourceW sourceH : ℕ)
    (sourceEdges : ℕ → ℕ → Bool) (score : ℕ × ℕ × ℤ → ℕ × ℕ → ℚ)
    (variations : List (ℕ × ℕ × ℤ)) (templates : ℕ × ℕ × ℤ → ℕ → ℕ → Bool)
    (mt it : ℚ) (pm : PageMetadata) :
    (∀ c ∈ generate_candidates sourceW sourceH score variations mt,
      sliceShape sourceH sourceW c.point.2 c.point.1 c.size.2 c.size.1 =
        (c.size.2, c.size.1)) ∧
    (∀ dc ∈ detect_symbol_on_page sourceW sourceH sourceEdges score variations
        templates mt it pm,
      0 ≤ dc.image_coords.left ∧ 0 ≤ dc.image_coords.top ∧
      dc.image_coords.left + dc.image_coords.width ≤ (sourceW : ℤ) ∧
      dc.image_coords.top + dc.image_coords.height ≤ (sourceH : ℤ)) := by
  constructor
  · intro c hc
    obtain ⟨hw, hh⟩ := mem_generate_candidates_bounds _ _ _ _ _ c hc
    simp only [sliceShape, Prod.mk.injEq]
    omega
  · intro dc hdc
    simp only [detect_symbol_on_page, transform_to_pdf_coordinates,
      List.mem_map] at hdc
    obtain ⟨vc, hvc, rfl⟩ := hdc
    obtain ⟨c, hc, hx, hy, hw, hh⟩ := mem_verify_candidates _ _ _ _ _ _ vc hvc
    obtain ⟨hbw, hbh⟩ := mem_generate_candidates_bounds _ _ _ _ _ c hc
    refine ⟨by positivity, by positivity, ?_, ?_⟩
    · show (vc.x : ℤ) + (vc.width : ℤ) ≤ (sourceW : ℤ)
      rw [hx, hw]
      exact_mod_cast hbw
    · show (vc.y : ℤ) + (vc.height : ℤ) ≤ (sourceH : ℤ)
      rw [hy, hh]
      exact_mod_cast hbh

/-- Modelled from the spec: "Document↔Raster conversion is a pure linear
scale (`dpi/72` and its inverse) with no vertical flip" — the
raster→document direction multiplies every field by `72 / dpi` of the
raster value's own DPI field, with no offset and no flip. -/
def rasterToDocumentSpec (c : ImageCoordinates) : PDFCoordinates :=
  { left := (c.left : ℚ) * (72 / (c.dpi : ℚ))
    top := (c.top : ℚ) * (72 / (c.dpi : ℚ))
    width := (c.width : ℚ) * (72 / (c.dpi : ℚ))
    height := (c.height : ℚ) * (72 / (c.dpi : ℚ)) }

/-- C2: `image_to_pdf` is exactly the pure linear scale by the raster
value's own DPI (no flip, no offset, no dependence on the page
geometry), and every candidate of `detect_symbol_on_page` carries
`pdf_coords` equal to its raster box scaled by `72/300`, whatever the
page's nominal display DPI. -/
theorem c2_raster_to_document_scale :
    (∀ (pm : PageMetadata) (c : ImageCoordinates),
      image_to_pdf pm c = rasterToDocumentSpec c) ∧
    (∀ (sourceW sourceH : ℕ) (sourceEdges : ℕ → ℕ → Bool)
        (score : ℕ × ℕ × ℤ → ℕ × ℕ → ℚ) (variations : List (ℕ × ℕ × ℤ))
        (templates : ℕ × ℕ × ℤ → ℕ → ℕ → Bool) (mt it : ℚ) (pm : PageMetadata),
      ∀ dc ∈ detect_symbol_on_page sourceW sourceH sourceEdges score variations
          templates mt it pm,
        dc.image_coords.dpi = 300 ∧
        dc.pdf_coords.left = (dc.image_coords.left : ℚ) * (72 / 300) ∧
        dc.pdf_coords.top = (dc.image_coords.top : ℚ) * (72 / 300) ∧
        dc.pdf_coords.width = (dc.image_coords.width : ℚ) * (72 / 300) ∧
        dc.pdf_coords.height = (dc.image_coords.height : ℚ) * (72 / 300)) := by
  constructor
  · intro pm c
    rfl
  · intro sourceW sourceH sourceEdges score variations templates mt it pm dc hdc
    simp only [detect_symbol_on_page, transform_to_pdf_coordinates,
      List.mem_map] at hdc
    obtain ⟨vc, -, rfl⟩ := hdc
    refine ⟨rfl, ?_, ?_, ?_, ?_⟩ <;>
      simp [image_to_pdf, DETECTION_DPI]

/-- The single candidate produced by the concrete pipeline run used as a
witness input: a 2×2 template matching a 2×2 page at position (0, 0). -/
def dcW : DetectionCandidate :=
  { candidate_id := 0
    image_coords := { left := 0, top := 0, width := 2, height := 2, dpi := 300 }
    pdf_coords := { left := 0, top := 0, width := 12/25, height := 12/25 }
    match_confidence := 1, iou_score := 1, matched_angle := 0
    template_size := (2, 2), status := "pending" }

theorem detect_witness_eval :
    detect_symbol_on_page 2 2 (fun _ _ => true) (fun _ _ => 1) [(2, 2, 0)]
      (fun _ _ _ => true) 1 1 pm150 = [dcW] := by
  have hraw : generate_candidates 2 2 (fun _ _ => (1 : ℚ)) [(2, 2, 0)] 1 =
      [{ point := (0, 0), confidence := 1, size := (2, 2), angle := 0 }] := by
    rw [generate_candidates]
    norm_num [group_close_points_eq_foldl, List.range_succ, nmsStep,
      List.filterMap_cons, List.filterMap_nil, List.mergeSort_singleton]
  rw [detect_symbol_on_page, hraw]
  norm_num [verify_candidates_iou, transform_to_pdf_coordinates,
    verify_shape_iou, sliceShape, countGrid, DETECTION_DPI, image_to_pdf,
    List.enum, List.range_succ, List.filter, List.filterMap_cons,
    List.filterMap_nil, dcW, pm150]

theorem c2_raster_to_document_scale_witness :
    dcW ∈ detect_symbol_on_page 2 2 (fun _ _ => true) (fun _ _ => 1) [(2, 2, 0)]
        (fun _ _ _ => true) 1 1 pm150 ∧
    dcW.image_coords.dpi = 300 ∧
    dcW.pdf_coords.left = (dcW.image_coords.left : ℚ) * (72 / 300) ∧
    dcW.pdf_coords.top = (dcW.image_coords.top : ℚ) * (72 / 300) ∧
    dcW.pdf_coords.width = (dcW.image_coords.width : ℚ) * (72 / 300) ∧
    dcW.pdf_coords.height = (dcW.image_coords.height : ℚ) * (72 / 300) := by
  have hmem : dcW ∈ detect_symbol_on_page 2 2 (fun _ _ => true) (fun _ _ => 1)
      [(2, 2, 0)] (fun _ _ _ => true) 1 1 pm150 := by
    rw [detect_witness_eval]
    exact List.mem_singleton.mpr rfl
  exact ⟨hmem, c2_raster_to_document_scale.2 2 2 _ _ _ _ 1 1 pm150 dcW hmem⟩

theorem c10_detections_within_page_witness :
    dcW ∈ detect_symbol_on_page 2 2 (fun _ _ => true) (fun _ _ => 1) [(2, 2, 0)]
        (fun _ _ _ => true) 1 1 pm150 ∧
    0 ≤ dcW.image_coords.left ∧ 0 ≤ dcW.image_coords.top ∧
    dcW.image_coords.left + dcW.image_coords.width ≤ (2 : ℤ) ∧
    dcW.image_coords.top + dcW.image_coords.height ≤ (2 : ℤ) := by
  have hmem : dcW ∈ detect_symbol_on_page 2 2 (fun _ _ => true) (fun _ _ => 1)
      [(2, 2, 0)] (fun _ _ _ => true) 1 1 pm150 := by
    rw [detect_witness_eval]
    exact List.mem_singleton.mpr rfl
  exact ⟨hmem, (c10_detections_within_page 2 2 (fun _ _ => true) (fun _ _ => 1)
    [(2, 2, 0)] (fun _ _ _ => true) 1 1 pm150).2 dcW hmem⟩

/-! ## Detection storage (`symbol_detection/detection_storage.py`)

The persisted JSON state of one detection run.  Wall-clock timestamps
(`datetime.now(...)`) are passed in explicitly as `now`.  Association
lists stand for Python's insertion-ordered dicts; the four run-level
status-count keys that `_recalculate_run_summary` adds are `Option`
fields (`none` = key absent), as are the average/min/max keys of the
symbol summary that `_recalculate_symbol_summary` drops. -/

/-- One serialized detection record. -/
structure StoredDetection where
  detectionId : String
  candidateId : ℤ
  imageCoords : ImageCoordinates
  pdfCoords : PDFCoordinates
  matchConfidence : ℚ
  iouScore : ℚ
  matchedAngle : ℤ
  templateSize : ℤ × ℤ
  status : String
  isUserAdded : Bool
  isUserModified : Bool
  createdAt : ℕ
  reviewedAt : Option ℕ
  reviewedBy : Option String
  modifiedAt : Option ℕ
deriving Repr, DecidableEq

/-- The per-symbol `summary` dict. -/
structure SymbolSummary where
  totalDetections : ℤ
  pagesWithDetections : ℤ
  acceptedCount : ℤ
  rejectedCount : ℤ
  pendingCount : ℤ
  modifiedCount : ℤ
  avgConfidence : Option ℚ
  minConfidence : Option ℚ
  maxConfidence : Option ℚ
  avgIou : Option ℚ
  minIou : Option ℚ
  maxIou : Option ℚ
deriving Repr, DecidableEq

/-- One symbol's `detections.json`: page-keyed detection lists plus the
symbol summary. -/
structure SymbolData where
  detectionsByPage : List (String × List StoredDetection)
  summary : SymbolSummary
deriving Repr, DecidableEq

/-- The run-level `summary` dict of `run_metadata.json`. -/
structure RunSummary where
  totalSymbols : ℤ
  totalPages : ℤ
  totalDetections : ℤ
  completedSymbols : ℤ
  completedPages : ℤ
  symbolsWithDetections : ℤ
  avgConfidence : ℚ
  avgIou : ℚ
  acceptedDetections : Option ℤ
  rejectedDetections : Option ℤ
  pendingDetections : Option ℤ
  modifiedDetections : Option ℤ
deriving Repr, DecidableEq

/-- One run's persisted state. -/
structure RunState where
  status : String
  symbols : List (String × SymbolData)
  summary : RunSummary
deriving Repr, DecidableEq

/-- One entry of the `detection_updates` list passed to
`update_detection_status`. -/
structure DetectionUpdate where
  detectionId : String
  action : String
  newCoords : Option PDFCoordinates
  reviewedBy : Option String
deriving Repr, DecidableEq

/-- The per-detection mutation inside
`_apply_symbol_detection_updates`: the `accept`/`reject`/`pending`/
`modify` chain (any other action falls through), then the unconditional
`reviewedAt`/`reviewedBy` stamps. -/
def applyUpdateToDetection (u : DetectionUpdate) (now : ℕ)
    (d : StoredDetection) : StoredDetection :=
  let d1 :=
    if u.action = "accept" then { d with status := "accepted" }
    else if u.action = "reject" then { d with status := "rejected" }
    else if u.action = "pending" then { d with status := "pending" }
    else if u.action = "modify" then
      { d with status := "modified", pdfCoords := u.newCoords.getD d.pdfCoords }
    else d
  { d1 with reviewedAt := some now, reviewedBy := some (u.reviewedBy.getD "unknown") }

/-- Apply one update to the first matching detection of one page (the
inner loop `break`s after the first hit). -/
def updateFirstMatching (u : DetectionUpdate) (now : ℕ) :
    List StoredDetection → List StoredDetection
  | [] => []
  | d :: ds =>
    if d.detectionId = u.detectionId then applyUpdateToDetection u now d :: ds
    else d :: updateFirstMatching u now ds

/-- All detections of a symbol, in page order (the nested
`for page_detections in ...: for detection in ...` traversal). -/
def allDetections (dbp : List (String × List StoredDetection)) :
    List StoredDetection :=
  dbp.flatMap Prod.snd

/-- `DetectionStorage._recalculate_symbol_summary`: tally the stored
detections from scratch (statuses other than accepted/rejected/modified
count as pending).  The replaced dict carries only these keys, so the
average/min/max fields come back absent. -/
def recalcSymbolSummary (dbp : List (String × List StoredDetection)) :
    SymbolSummary :=
  let all := allDetections dbp
  { totalDetections := all.length
    acceptedCount := (all.filter (fun d => d.status = "accepted")).length
    rejectedCount := (all.filter (fun d => d.status = "rejected")).length
    modifiedCount := (all.filter (fun d => d.status = "modified")).length
    pendingCount := (all.filter (fun d =>
      !(d.status = "accepted" || d.status = "rejected" || d.status = "modified"))).length
    pagesWithDetections := (dbp.filter (fun p => 0 < p.2.length)).length
    avgConfidence := none, minConfidence := none, maxConfidence := none
    avgIou := none, minIou := none, maxIou := none }

/-- `DetectionStorage._apply_symbol_detection_updates`: apply every
update to the first matching detection of every page, then recompute the
symbol summary from scratch. -/
def applySymbolDetectionUpdates (now : ℕ) (updates : List DetectionUpdate)
    (sd : SymbolData) : SymbolData :=
  let dbp := updates.foldl
    (fun dbp u => dbp.map (fun p => (p.1, updateFirstMatching u now p.2)))
    sd.detectionsByPage
  { detectionsByPage := dbp, summary := recalcSymbolSummary dbp }

/-- Does this symbol's file contain the detection id? -/
def symbolContains (sd : SymbolData) (detId : String) : Bool :=
  sd.detectionsByPage.any (fun pg => pg.2.any (fun d => d.detectionId = detId))

/-- `DetectionStorage._find_symbol_for_detection`. -/
def findSymbolForDetection (syms : List (String × SymbolData))
    (detId : String) : Option String :=
  syms.findSome? (fun p => if symbolContains p.2 detId then some p.1 else none)

/-- Append a value to an insertion-ordered grouping dict. -/
def addToGroup (groups : List (String × List DetectionUpdate)) (k : String)
    (u : DetectionUpdate) : List (String × List DetectionUpdate) :=
  match groups with
  | [] => [(k, [u])]
  | (k', us) :: rest =>
    if k' = k then (k', us ++ [u]) :: rest else (k', us) :: addToGroup rest k u

/-- The `updates_by_symbol` grouping of `update_detection_status`
(updates whose id resolves to no symbol are dropped). -/
def groupUpdatesBySymbol (syms : List (String × SymbolData))
    (updates : List DetectionUpdate) : List (String × List DetectionUpdate) :=
  updates.foldl
    (fun groups u =>
      match findSymbolForDetection syms u.detectionId with
      | none => groups
      | some sid => addToGroup groups sid u)
    []

/-- Rewrite one symbol's entry in the run directory. -/
def updateSymbolData (syms : List (String × SymbolData)) (sid : String)
    (f : SymbolData → SymbolData) : List (String × SymbolData) :=
  syms.map (fun p => if p.1 = sid then (p.1, f p.2) else p)

/-- `DetectionStorage._recalculate_run_summary`: re-read every symbol
summary, total the four status counts and write them into the run
summary (adding the keys when absent). -/
def recalcRunSummary (r : RunState) : RunState :=
  { r with summary :=
    { r.summary with
      acceptedDetections := some ((r.symbols.map (fun p => p.2.summary.acceptedCount)).sum)
      rejectedDetections := some ((r.symbols.map (fun p => p.2.summary.rejectedCount)).sum)
      pendingDetections := some ((r.symbols.map (fun p => p.2.summary.pendingCount)).sum)
      modifiedDetections := some ((r.symbols.map (fun p => p.2.summary.modifiedCount)).sum) } }

/-- `DetectionStorage.update_detection_status` on one run's state: group
the updates by owning symbol (silently dropping unknown ids), apply each
group, then recompute the run summary. -/
def update_detection_status_run (now : ℕ) (updates : List DetectionUpdate)
    (r : RunState) : RunState :=
  let groups := groupUpdatesBySymbol r.symbols updates
  let syms := groups.foldl
    (fun syms g => updateSymbolData syms g.1 (applySymbolDetectionUpdates now g.2))
    r.symbols
  recalcRunSummary { r with symbols := syms }

/-- Rewrite one run's entry in the store. -/
def updateRunEntry (runs : List (String × RunState)) (runId : String)
    (f : RunState → RunState) : List (String × RunState) :=
  runs.map (fun p => if p.1 = runId then (p.1, f p.2) else p)

/-- `DetectionStorage.update_detection_status`: raises `ValueError` when
the run directory does not exist, otherwise mutates the run in place. -/
def update_detection_status (runs : List (String × RunState)) (runId : String)
    (now : ℕ) (updates : List DetectionUpdate) :
    Except String (List (String × RunState)) :=
  match runs.lookup runId with
  | none => .error ("Detection run " ++ runId ++ " not found")
  | some _ => .ok (updateRunEntry runs runId (update_detection_status_run now updates))

/-- Insert a new detection into `detectionsByPage[page_key]`, creating
the page entry when absent (dict update: one slot per key). -/
def addToPage (pageKey : String) (nd : StoredDetection) :
    List (String × List StoredDetection) → List (String × List StoredDetection)
  | [] => [(pageKey, [nd])]
  | p :: rest =>
    if p.1 = pageKey then (p.1, p.2 ++ [nd]) :: rest
    else p :: addToPage pageKey nd rest

/-- `DetectionStorage.add_user_detection` on one run's state: raise when
the symbol file is missing, otherwise append a pending user-added
detection, bump `totalDetections`/`pendingCount` in place, and
recompute the run summary. -/
def add_user_detection_run (symbolId : String) (pdfC : PDFCoordinates)
    (imgC : ImageCoordinates) (pageKey : String) (now : ℕ) (newId : String)
    (r : RunState) : Except String RunState :=
  match r.symbols.lookup symbolId with
  | none => .error ("Symbol " ++ symbolId ++ " not found")
  | some _ =>
    let newDet : StoredDetection :=
      { detectionId := newId, candidateId := -1, imageCoords := imgC
        pdfCoords := pdfC, matchConfidence := 1, iouScore := 1
        matchedAngle := 0, templateSize := (imgC.width, imgC.height)
        status := "pending", isUserAdded := true, isUserModified := false
        createdAt := now, reviewedAt := none, reviewedBy := none
        modifiedAt := none }
    let syms := updateSymbolData r.symbols symbolId (fun sd =>
      { detectionsByPage := addToPage pageKey newDet sd.detectionsByPage
        summary := { sd.summary with
          totalDetections := sd.summary.totalDetections + 1
          pendingCount := sd.summary.pendingCount + 1 } })
    .ok (recalcRunSummary { r with symbols := syms })

/-- Remove the first detection with the given id from a page list. -/
def removeFirst (detId : String) :
    List StoredDetection → Option (StoredDetection × List StoredDetection)
  | [] => none
  | d :: ds =>
    if d.detectionId = detId then some (d, ds)
    else (removeFirst detId ds).map (fun r => (r.1, d :: r.2))

/-- Remove the first matching detection across a symbol's pages. -/
def removeFromPages (detId : String) :
    List (String × List StoredDetection) →
      Option (StoredDetection × List (String × List StoredDetection))
  | [] => none
  | (k, ds) :: rest =>
    match removeFirst detId ds with
    | some (d, ds') => some (d, (k, ds') :: rest)
    | none => (removeFromPages detId rest).map (fun r => (r.1, (k, ds) :: r.2))

/-- The in-place summary decrements of `delete_detection`: always
`totalDetections`, plus the count for a pending/accepted/rejected
status — a `modified` detection decrements no status count. -/
def deleteAdjust (s : SymbolSummary) (status : String) : SymbolSummary :=
  let s1 := { s with totalDetections := s.totalDetections - 1 }
  if status = "pending" then { s1 with pendingCount := s1.pendingCount - 1 }
  else if status = "accepted" then { s1 with acceptedCount := s1.acceptedCount - 1 }
  else if status = "rejected" then { s1 with rejectedCount := s1.rejectedCount - 1 }
  else s1

/-- Delete the detection from the first symbol that contains it. -/
def deleteFromSymbols (detId : String) :
    List (String × SymbolData) → Option (List (String × SymbolData))
  | [] => none
  | (sid, sd) :: rest =>
    match removeFromPages detId sd.detectionsByPage with
    | some (d, dbp) =>
      some ((sid, { detectionsByPage := dbp
                    summary := deleteAdjust sd.summary d.status }) :: rest)
    | none => (deleteFromSymbols detId rest).map (fun syms => (sid, sd) :: syms)

/-- `DetectionStorage.delete_detection` on one run's state: returns
whether a detection was removed; on removal the symbol summary is
adjusted in place and the run summary recomputed. -/
def delete_detection_run (detId : String) (r : RunState) : Bool × RunState :=
  match deleteFromSymbols detId r.symbols with
  | some syms => (true, recalcRunSummary { r with symbols := syms })
  | none => (false, r)

/-- Per-page first-match coordinate rewrite of
`update_detection_coordinates`. -/
def updateCoordsInDetList (detId : String) (pdfC : PDFCoordinates)
    (imgC : ImageCoordinates) (now : ℕ) :
    List StoredDetection → Bool × List StoredDetection
  | [] => (false, [])
  | d :: ds =>
    if d.detectionId = detId then
      (true, { d with pdfCoords := pdfC, imageCoords := imgC
                      isUserModified := true, modifiedAt := some now } :: ds)
    else
      let r := updateCoordsInDetList detId pdfC imgC now ds
      (r.1, d :: r.2)

/-- Coordinate rewrite across one symbol's pages (every page is scanned;
each page updates at most its first match). -/
def updateCoordsInPages (detId : String) (pdfC : PDFCoordinates)
    (imgC : ImageCoordinates) (now : ℕ)
    (dbp : List (String × List StoredDetection)) :
    Bool × List (String × List StoredDetection) :=
  let pairs := dbp.map (fun p => (p.1, updateCoordsInDetList detId pdfC imgC now p.2))
  (pairs.any (fun p => p.2.1), pairs.map (fun p => (p.1, p.2.2)))

/-- Coordinate rewrite across symbols: the loop stops at the first
symbol where an update happened; the symbol summary is not recomputed. -/
def updateCoordsInSymbols (detId : String) (pdfC : PDFCoordinates)
    (imgC : ImageCoordinates) (now : ℕ) :
    List (String × SymbolData) → Option (List (String × SymbolData))
  | [] => none
  | (sid, sd) :: rest =>
    let r := updateCoordsInPages detId pdfC imgC now sd.detectionsByPage
    if r.1 then some ((sid, { sd with detectionsByPage := r.2 }) :: rest)
    else (updateCoordsInSymbols detId pdfC imgC now rest).map
      (fun syms => (sid, sd) :: syms)

/-- `DetectionStorage.update_detection_coordinates` on one run's state:
raises when the detection is not found, otherwise rewrites the record
and recomputes the run summary. -/
def update_detection_coordinates_run (detId : String) (pdfC : PDFCoordinates)
    (imgC : ImageCoordinates) (now : ℕ) (r : RunState) : Except String RunState :=
  match updateCoordsInSymbols detId pdfC imgC now r.symbols with
  | some syms => .ok (recalcRunSummary { r with symbols := syms })
  | none => .error ("Detection " ++ detId ++ " not found")

/-! ### Status-update idempotence (C4) -/

theorem applyUpdate_detectionId (u : DetectionUpdate) (t : ℕ) (d : StoredDetection) :
    (applyUpdateToDetection u t d).detectionId = d.detectionId := by
  simp only [applyUpdateToDetection]
  split_ifs <;> rfl

theorem applyUpdate_absorb (u : DetectionUpdate) (t₁ t₂ : ℕ) (d : StoredDetection) :
    applyUpdateToDetection u t₂ (applyUpdateToDetection u t₁ d) =
      applyUpdateToDetection u t₂ d := by
  simp only [applyUpdateToDetection]
  split_ifs <;> cases u.newCoords <;> rfl

theorem updateFirstMatching_idMap (u : DetectionUpdate) (t : ℕ)
    (l : List StoredDetection) :
    (updateFirstMatching u t l).map (fun d => d.detectionId) =
      l.map (fun d => d.detectionId) := by
  induction l with
  | nil => rfl
  | cons d ds ih =>
    by_cases h : d.detectionId = u.detectionId
    · simp [updateFirstMatching, h, applyUpdate_detectionId]
    · simp [updateFirstMatching, h, ih]

theorem updateFirstMatching_absorb (u : DetectionUpdate) (t₁ t₂ : ℕ)
    (l : List StoredDetection) :
    updateFirstMatching u t₂ (updateFirstMatching u t₁ l) =
      updateFirstMatching u t₂ l := by
  induction l with
  | nil => rfl
  | cons d ds ih =>
    by_cases h : d.detectionId = u.detectionId
    · simp [updateFirstMatching, h, applyUpdate_detectionId, applyUpdate_absorb]
    · simp [updateFirstMatching, h, ih]

/-- Page keys together with the detection-id lists: the projection that
`_find_symbol_for_detection` reads. -/
def pageIds (dbp : List (String × List StoredDetection)) :
    List (String × List String) :=
  dbp.map (fun p => (p.1, p.2.map (fun d => d.detectionId)))

theorem pageIds_updateStep (u : DetectionUpdate) (t : ℕ)
    (dbp : List (String × List StoredDetection)) :
    pageIds (dbp.map (fun p => (p.1, updateFirstMatching u t p.2))) =
      pageIds dbp := by
  simp [pageIds, List.map_map, Function.comp_def, updateFirstMatching_idMap]

theorem pageIds_applyFold (t : ℕ) (us : List DetectionUpdate) :
    ∀ dbp, pageIds (us.foldl
      (fun dbp u => dbp.map (fun p => (p.1, updateFirstMatching u t p.2))) dbp) =
      pageIds dbp := by
  induction us with
  | nil => intro dbp; rfl
  | cons u us ih =>
    intro dbp
    rw [List.foldl_cons, ih, pageIds_updateStep]

theorem pageIds_applySymbol (t : ℕ) (us : List DetectionUpdate) (sd : SymbolData) :
    pageIds (applySymbolDetectionUpdates t us sd).detectionsByPage =
      pageIds sd.detectionsByPage :=
  pageIds_applyFold t us sd.detectionsByPage

theorem anyMapGen {α β : Type} (f : α → β) (l : List α) (p : β → Bool) :
    (l.map f).any p = l.any (fun a => p (f a)) := by
  induction l with
  | nil => rfl
  | cons a l ih => simp only [List.map_cons, List.any_cons, ih]

theorem symbolContains_eq_pageIds (sd : SymbolData) (q : String) :
    symbolContains sd q =
      (pageIds sd.detectionsByPage).any (fun pg => pg.2.any (fun i => i = q)) := by
  simp only [symbolContains, pageIds, anyMapGen]

theorem symbolContains_applySymbol (t : ℕ) (us : List DetectionUpdate)
    (sd : SymbolData) (q : String) :
    symbolContains (applySymbolDetectionUpdates t us sd) q = symbolContains sd q := by
  rw [symbolContains_eq_pageIds, symbolContains_eq_pageIds, pageIds_applySymbol]

theorem findSymbol_updateSymbolData (syms : List (String × SymbolData))
    (sid : String) (t : ℕ) (us : List DetectionUpdate) (q : String) :
    findSymbolForDetection (updateSymbolData syms sid (applySymbolDetectionUpdates t us)) q =
      findSymbolForDetection syms q := by
  induction syms with
  | nil => rfl
  | cons p rest ih =>
    by_cases h : p.1 = sid
    · simp only [updateSymbolData, List.map_cons, if_pos h, findSymbolForDetection,
        List.findSome?_cons, symbolContains_applySymbol]
      simp only [updateSymbolData, findSymbolForDetection] at ih
      rw [ih]
    · simp only [updateSymbolData, List.map_cons, if_neg h, findSymbolForDetection,
        List.findSome?_cons]
      simp only [updateSymbolData, findSymbolForDetection] at ih
      rw [ih]

theorem updateSymbolData_comp (syms : List (String × SymbolData)) (sid : String)
    (f g : SymbolData → SymbolData) :
    updateSymbolData (updateSymbolData syms sid f) sid g =
      updateSymbolData syms sid (fun sd => g (f sd)) := by
  induction syms with
  | nil => rfl
  | cons p rest ih =>
    by_cases h : p.1 = sid
    · simp [updateSymbolData, h] at ih ⊢
      exact ih
    · simp [updateSymbolData, h] at ih ⊢
      exact ih

theorem applySymbol_absorb (t₁ t₂ : ℕ) (u : DetectionUpdate) (sd : SymbolData) :
    applySymbolDetectionUpdates t₂ [u] (applySymbolDetectionUpdates t₁ [u] sd) =
      applySymbolDetectionUpdates t₂ [u] sd := by
  simp only [applySymbolDetectionUpdates, List.foldl_cons, List.foldl_nil,
    List.map_map]
  have : (fun p : String × List StoredDetection =>
      (p.1, updateFirstMatching u t₂ p.2)) ∘
      (fun p : String × List StoredDetection =>
      (p.1, updateFirstMatching u t₁ p.2)) =
      fun p : String × List StoredDetection =>
      (p.1, updateFirstMatching u t₂ p.2) := by
    funext p
    simp [Function.comp_def, updateFirstMatching_absorb]
  rw [this]

theorem groupUpdates_single (syms : List (String × SymbolData))
    (u : DetectionUpdate) :
    groupUpdatesBySymbol syms [u] =
      match findSymbolForDetection syms u.detectionId with
      | none => []
      | some sid => [(sid, [u])] := by
  simp only [groupUpdatesBySymbol, List.foldl_cons, List.foldl_nil]
  cases findSymbolForDetection syms u.detectionId <;> rfl

theorem recalcRunSummary_symbols (r : RunState) :
    (recalcRunSummary r).symbols = r.symbols := rfl

theorem single_update_absorb (u : DetectionUpdate) (t₁ t₂ : ℕ) (r : RunState) :
    update_detection_status_run t₂ [u] (update_detection_status_run t₁ [u] r) =
      update_detection_status_run t₂ [u] r := by
  cases hfind : findSymbolForDetection r.symbols u.detectionId with
  | none =>
    have h1 : update_detection_status_run t₁ [u] r = recalcRunSummary r := by
      simp only [update_detection_status_run, groupUpdates_single, hfind,
        List.foldl_nil]
    rw [h1]
    simp only [update_detection_status_run, groupUpdates_single,
      recalcRunSummary_symbols, hfind, List.foldl_nil]
    rfl
  | some sid =>
    have h1 : update_detection_status_run t₁ [u] r =
        recalcRunSummary
          { status := r.status
            symbols := updateSymbolData r.symbols sid (applySymbolDetectionUpdates t₁ [u])
            summary := r.summary } := by
      simp only [update_detection_status_run, groupUpdates_single, hfind,
        List.foldl_cons, List.foldl_nil]
    have h2 : findSymbolForDetection
        (updateSymbolData r.symbols sid (applySymbolDetectionUpdates t₁ [u]))
        u.detectionId = some sid := by
      rw [findSymbol_updateSymbolData]
      exact hfind
    rw [h1]
    simp only [update_detection_status_run, groupUpdates_single,
      recalcRunSummary_symbols, h2, hfind, List.foldl_cons, List.foldl_nil]
    rw [updateSymbolData_comp]
    have h3 : (fun sd => applySymbolDetectionUpdates t₂ [u]
        (applySymbolDetectionUpdates t₁ [u] sd)) =
        applySymbolDetectionUpdates t₂ [u] := by
      funext sd
      exact applySymbol_absorb t₁ t₂ u sd
    rw [h3]
    rfl

/-- C4: re-applying the same `accept` update for a detection id through
`update_detection_status` yields the same persisted detections,
per-symbol summaries and run summary as applying it once (for any
stored run state and any id, present or not; the second application is
absorbed). -/
theorem c4_accept_update_idempotent (r : RunState) (detId : String)
    (rb : Option String) (t₁ t₂ : ℕ) :
    update_detection_status_run t₂ [⟨detId, "accept", none, rb⟩]
        (update_detection_status_run t₁ [⟨detId, "accept", none, rb⟩] r) =
      update_detection_status_run t₂ [⟨detId, "accept", none, rb⟩] r :=
  single_update_absorb ⟨detId, "accept", none, rb⟩ t₁ t₂ r

/-! ### Unknown detection ids (C5) -/

/-- The run summary's four aggregate status-count keys are present and
agree with the per-symbol summaries (as after any previous
`_recalculate_run_summary`). -/
def runSummaryPopulated (r : RunState) : Prop :=
  r.summary.acceptedDetections =
    some ((r.symbols.map (fun p => p.2.summary.acceptedCount)).sum) ∧
  r.summary.rejectedDetections =
    some ((r.symbols.map (fun p => p.2.summary.rejectedCount)).sum) ∧
  r.summary.pendingDetections =
    some ((r.symbols.map (fun p => p.2.summary.pendingCount)).sum) ∧
  r.summary.modifiedDetections =
    some ((r.symbols.map (fun p => p.2.summary.modifiedCount)).sum)

instance (r : RunState) : Decidable (runSummaryPopulated r) := by
  unfold runSummaryPopulated; infer_instance

theorem recalcRunSummary_of_populated (r : RunState)
    (h : runSummaryPopulated r) : recalcRunSummary r = r := by
  obtain ⟨h1, h2, h3, h4⟩ := h
  cases r with
  | mk status symbols summary =>
    cases summary
    simp_all [recalcRunSummary, RunState.mk.injEq, RunSummary.mk.injEq]

theorem groupUpdates_all_unknown (syms : List (String × SymbolData))
    (updates : List DetectionUpdate)
    (h : ∀ u ∈ updates, findSymbolForDetection syms u.detectionId = none) :
    groupUpdatesBySymbol syms updates = [] := by
  have main : ∀ (us : List DetectionUpdate),
      (∀ u ∈ us, findSymbolForDetection syms u.detectionId = none) →
      ∀ acc, us.foldl
        (fun groups u =>
          match findSymbolForDetection syms u.detectionId with
          | none => groups
          | some sid => addToGroup groups sid u) acc = acc := by
    intro us
    induction us with
    | nil => intro _ acc; rfl
    | cons u us ih =>
      intro hall acc
      rw [List.foldl_cons, hall u (List.mem_cons_self u us)]
      exact ih (fun v hv => hall v (List.mem_cons_of_mem u hv)) acc
  simp only [groupUpdatesBySymbol]
  exact main updates h []

theorem lookup_of_mem_uniq (runs : List (String × RunState)) (runId : String)
    (r : RunState) (hmem : (runId, r) ∈ runs)
    (huniq : ∀ p ∈ runs, p.1 = runId → p.2 = r) :
    runs.lookup runId = some r := by
  induction runs with
  | nil => cases hmem
  | cons p rest ih =>
    rcases p with ⟨k, v⟩
    by_cases h : k = runId
    · have hv : v = r := huniq (k, v) (List.mem_cons_self _ _) h
      subst h
      simp [List.lookup, hv]
    · have hmem' : (runId, r) ∈ rest := by
        rcases List.mem_cons.mp hmem with heq | hm
        · cases heq
          exact absurd rfl h
        · exact hm
      have ih' := ih hmem' (fun q hq => huniq q (List.mem_cons_of_mem _ hq))
      have hne : (runId == k) = false :=
        beq_eq_false_iff_ne.mpr (fun he => h he.symm)
      simp [List.lookup, hne, ih']

/-- C5 (amended): an update whose detection id matches no stored
detection is silently skipped — the call succeeds, every stored
detection record is untouched, and for any run whose aggregate
status-count keys are already populated (as after any previous edit) the
run state, and hence the whole store, is entirely unchanged. -/
theorem c5_unknown_id_no_op (runs : List (String × RunState)) (runId : String)
    (r : RunState) (updates : List DetectionUpdate) (t : ℕ)
    (hmem : (runId, r) ∈ runs)
    (huniq : ∀ p ∈ runs, p.1 = runId → p.2 = r)
    (hunknown : ∀ u ∈ updates, findSymbolForDetection r.symbols u.detectionId = none)
    (hpop : runSummaryPopulated r) :
    update_detection_status runs runId t updates = .ok runs ∧
    update_detection_status_run t updates r = r ∧
    (update_detection_status_run t updates r).symbols = r.symbols := by
  have hrun : update_detection_status_run t updates r = r := by
    simp only [update_detection_status_run]
    rw [show (groupUpdatesBySymbol r.symbols updates) = [] from
      groupUpdates_all_unknown r.symbols updates hunknown]
    simp only [List.foldl_nil]
    exact recalcRunSummary_of_populated r hpop
  refine ⟨?_, hrun, by rw [hrun]⟩
  have hlook := lookup_of_mem_uniq runs runId r hmem huniq
  simp only [update_detection_status, hlook]
  congr 1
  unfold updateRunEntry
  have hcongr : runs.map
      (fun p => if p.1 = runId then (p.1, update_detection_status_run t updates p.2) else p) =
      runs.map id := by
    apply List.map_congr_left
    intro p hp
    by_cases h : p.1 = runId
    · have hv := huniq p hp h
      rw [if_pos h, hv, hrun, ← hv]
      rfl
    · rw [if_neg h]
      rfl
  rw [hcongr, List.map_id]

/-- A concrete pending detection record. -/
def detW : StoredDetection :=
  { detectionId := "d1", candidateId := 0
    imageCoords := { left := 0, top := 0, width := 10, height := 10, dpi := 300 }
    pdfCoords := { left := 0, top := 0, width := 12/5, height := 12/5 }
    matchConfidence := 1/2, iouScore := 1/2, matchedAngle := 0
    templateSize := (10, 10), status := "pending", isUserAdded := false
    isUserModified := false, createdAt := 0, reviewedAt := none
    reviewedBy := none, modifiedAt := none }

/-- A symbol file holding exactly `detW` on page 1, with a consistent
summary. -/
def sdW : SymbolData :=
  { detectionsByPage := [("1", [detW])]
    summary :=
      { totalDetections := 1, pagesWithDetections := 1, acceptedCount := 0
        rejectedCount := 0, pendingCount := 1, modifiedCount := 0
        avgConfidence := some (1/2), minConfidence := some (1/2)
        maxConfidence := some (1/2), avgIou := some (1/2)
        minIou := some (1/2), maxIou := some (1/2) } }

/-- A run whose aggregate status-count keys are populated and
consistent. -/
def rConsistent : RunState :=
  { status := "completed", symbols := [("sym1", sdW)]
    summary :=
      { totalSymbols := 1, totalPages := 1, totalDetections := 1
        completedSymbols := 1, completedPages := 0, symbolsWithDetections := 1
        avgConfidence := 1/2, avgIou := 1/2
        acceptedDetections := some 0, rejectedDetections := some 0
        pendingDetections := some 1, modifiedDetections := some 0 } }

theorem c5_unknown_id_no_op_witness :
    ("run1", rConsistent) ∈ [("run1", rConsistent)] ∧
    (∀ p ∈ [("run1", rConsistent)], p.1 = "run1" → p.2 = rConsistent) ∧
    (∀ u ∈ [(⟨"nope", "accept", none, none⟩ : DetectionUpdate)],
      findSymbolForDetection rConsistent.symbols u.detectionId = none) ∧
    runSummaryPopulated rConsistent ∧
    (update_detection_status [("run1", rConsistent)] "run1" 7
        [⟨"nope", "accept", none, none⟩] = .ok [("run1", rConsistent)] ∧
      update_detection_status_run 7 [⟨"nope", "accept", none, none⟩] rConsistent
        = rConsistent ∧
      (update_detection_status_run 7 [⟨"nope", "accept", none, none⟩]
        rConsistent).symbols = rConsistent.symbols) :=
  ⟨List.mem_singleton.mpr rfl,
   by
     intro p hp _
     rw [List.mem_singleton.mp hp],
   by
     intro u hu
     rw [List.mem_singleton.mp hu]
     decide,
   by decide,
   c5_unknown_id_no_op [("run1", rConsistent)] "run1" rConsistent
     [⟨"nope", "accept", none, none⟩] 7
     (List.mem_singleton.mpr rfl)
     (by
       intro p hp _
       rw [List.mem_singleton.mp hp])
     (by
       intro u hu
       rw [List.mem_singleton.mp hu]
       decide)
     (by decide)⟩

/-- A run state exactly as `create_detection_run` plus one
`save_symbol_detections` leave it: the four aggregate status-count keys
have never been written. -/
def rFresh : RunState :=
  { status := "running", symbols := [("sym1", sdW)]
    summary :=
      { totalSymbols := 1, totalPages := 1, totalDetections := 1
        completedSymbols := 1, completedPages := 0, symbolsWithDetections := 1
        avgConfidence := 1/2, avgIou := 1/2
        acceptedDetections := none, rejectedDetections := none
        pendingDetections := none, modifiedDetections := none } }

/-- C5 fails as stated: on a run whose aggregate status-count keys have
not yet been written, an update with an unknown detection id still
triggers `_recalculate_run_summary`, which writes the four keys — the
persisted aggregate summary changes (`pendingDetections` appears with
value 1). -/
theorem c5_counterexample :
    (∀ p ∈ rFresh.symbols, symbolContains p.2 "nope" = false) ∧
    rFresh.summary.pendingDetections = none ∧
    (update_detection_status_run 7 [⟨"nope", "accept", none, none⟩]
      rFresh).summary.pendingDetections = some 1 := by
  refine ⟨by decide, rfl, ?_⟩
  decide

/-! ### Summary/record count consistency (C6) -/

/-- The five stored per-symbol status counts agree with a fresh re-scan
of the stored detection records. -/
def symbolCountsConsistent (sd : SymbolData) : Prop :=
  sd.summary.totalDetections =
    (recalcSymbolSummary sd.detectionsByPage).totalDetections ∧
  sd.summary.acceptedCount =
    (recalcSymbolSummary sd.detectionsByPage).acceptedCount ∧
  sd.summary.rejectedCount =
    (recalcSymbolSummary sd.detectionsByPage).rejectedCount ∧
  sd.summary.pendingCount =
    (recalcSymbolSummary sd.detectionsByPage).pendingCount ∧
  sd.summary.modifiedCount =
    (recalcSymbolSummary sd.detectionsByPage).modifiedCount

instance (sd : SymbolData) : Decidable (symbolCountsConsistent sd) := by
  unfold symbolCountsConsistent; infer_instance

/-- Every symbol's counts are consistent and the run-level aggregate
status counts equal the per-symbol totals. -/
def runCountsConsistent (r : RunState) : Prop :=
  (∀ p ∈ r.symbols, symbolCountsConsistent p.2) ∧ runSummaryPopulated r

instance (r : RunState) : Decidable (runCountsConsistent r) := by
  unfold runCountsConsistent
  infer_instance

theorem allDetections_cons (k : String) (ds : List StoredDetection)
    (rest : List (String × List StoredDetection)) :
    allDetections ((k, ds) :: rest) = ds ++ allDetections rest := rfl

theorem addToPage_perm (k : String) (nd : StoredDetection)
    (dbp : List (String × List StoredDetection)) :
    List.Perm (allDetections (addToPage k nd dbp)) (nd :: allDetections dbp) := by
  induction dbp with
  | nil => simp [addToPage, allDetections]
  | cons p rest ih =>
    rcases p with ⟨k', ds⟩
    by_cases h : k' = k
    · simp only [addToPage, if_pos h, allDetections_cons]
      rw [List.append_assoc]
      exact List.perm_middle
    · simp only [addToPage, if_neg h, allDetections_cons]
      exact (ih.append_left ds).trans List.perm_middle

theorem removeFirst_spec (detId : String) (l : List StoredDetection)
    (d : StoredDetection) (l' : List StoredDetection)
    (h : removeFirst detId l = some (d, l')) :
    d.detectionId = detId ∧ List.Perm l (d :: l') := by
  induction l generalizing d l' with
  | nil => cases h
  | cons a as ih =>
    by_cases ha : a.detectionId = detId
    · simp only [removeFirst, if_pos ha] at h
      cases h
      exact ⟨ha, List.Perm.refl _⟩
    · simp only [removeFirst, if_neg ha] at h
      cases hrec : removeFirst detId as with
      | none =>
        rw [hrec] at h
        cases h
      | some r =>
        rw [hrec] at h
        rcases r with ⟨d', as'⟩
        simp only [Option.map_some', Option.some.injEq, Prod.mk.injEq] at h
        obtain ⟨hd, hl'⟩ := h
        obtain ⟨hid, hperm⟩ := ih d' as' hrec
        subst hd hl'
        exact ⟨hid, (hperm.cons a).trans (List.Perm.swap d' a as')⟩

theorem removeFromPages_spec (detId : String)
    (dbp : List (String × List StoredDetection)) (d : StoredDetection)
    (dbp' : List (String × List StoredDetection))
    (h : removeFromPages detId dbp = some (d, dbp')) :
    d.detectionId = detId ∧
    List.Perm (allDetections dbp) (d :: allDetections dbp') := by
  induction dbp generalizing d dbp' with
  | nil => cases h
  | cons p rest ih =>
    rcases p with ⟨k, ds⟩
    cases hfirst : removeFirst detId ds with
    | some r =>
      rcases r with ⟨d0, ds'⟩
      simp only [removeFromPages, hfirst, Option.some.injEq, Prod.mk.injEq] at h
      obtain ⟨rfl, rfl⟩ := h
      obtain ⟨hid, hperm⟩ := removeFirst_spec detId ds d0 ds' hfirst
      refine ⟨hid, ?_⟩
      simp only [allDetections_cons]
      exact hperm.append_right (allDetections rest)
    | none =>
      simp only [removeFromPages, hfirst] at h
      cases hrec : removeFromPages detId rest with
      | none =>
        rw [hrec] at h
        cases h
      | some r =>
        rw [hrec] at h
        rcases r with ⟨d0, rest'⟩
        simp only [Option.map_some', Option.some.injEq, Prod.mk.injEq] at h
        obtain ⟨rfl, rfl⟩ := h
        obtain ⟨hid, hperm⟩ := ih d0 rest' hrec
        refine ⟨hid, ?_⟩
        simp only [allDetections_cons]
        exact (hperm.append_left ds).trans List.perm_middle

/-- Transfer of filter-counts along a removal permutation. -/
theorem filter_length_remove (all all' : List StoredDetection)
    (d : StoredDetection) (hperm : List.Perm all (d :: all'))
    (p : StoredDetection → Bool) :
    (all.filter p).length =
      (all'.filter p).length + (if p d then 1 else 0) := by
  have h1 := hperm.countP_eq p
  rw [List.countP_cons] at h1
  rw [← List.countP_eq_length_filter, ← List.countP_eq_length_filter]
  exact h1

/-- The per-symbol summary written by `_apply_symbol_detection_updates`
is consistent by construction. -/
theorem symbolConsistent_apply (t : ℕ) (us : List DetectionUpdate)
    (sd : SymbolData) :
    symbolCountsConsistent (applySymbolDetectionUpdates t us sd) :=
  ⟨rfl, rfl, rfl, rfl, rfl⟩

theorem mem_updateSymbolData (syms : List (String × SymbolData)) (sid : String)
    (f : SymbolData → SymbolData) (p : String × SymbolData)
    (hp : p ∈ updateSymbolData syms sid f) :
    p ∈ syms ∨ ∃ q ∈ syms, p = (q.1, f q.2) := by
  simp only [updateSymbolData, List.mem_map] at hp
  obtain ⟨q, hq, hpq⟩ := hp
  by_cases h : q.1 = sid
  · rw [if_pos h] at hpq
    exact Or.inr ⟨q, hq, hpq.symm⟩
  · rw [if_neg h] at hpq
    exact Or.inl (hpq ▸ hq)

theorem symbols_consistent_after_groups (t : ℕ) :
    ∀ (groups : List (String × List DetectionUpdate))
      (syms : List (String × SymbolData)),
      (∀ p ∈ syms, symbolCountsConsistent p.2) →
      ∀ p ∈ groups.foldl
        (fun syms g => updateSymbolData syms g.1 (applySymbolDetectionUpdates t g.2))
        syms, symbolCountsConsistent p.2 := by
  intro groups
  induction groups with
  | nil => exact fun syms h => h
  | cons g gs ih =>
    intro syms h
    rw [List.foldl_cons]
    apply ih
    intro p hp
    rcases mem_updateSymbolData _ _ _ p hp with hmem | ⟨q, -, rfl⟩
    · exact h p hmem
    · exact symbolConsistent_apply t g.2 q.2

/-- `_recalculate_run_summary` yields a consistent run state whenever
all symbol summaries are consistent. -/
theorem runConsistent_recalc (r : RunState)
    (h : ∀ p ∈ r.symbols, symbolCountsConsistent p.2) :
    runCountsConsistent (recalcRunSummary r) :=
  ⟨h, rfl, rfl, rfl, rfl⟩

theorem filter_length_remove_false (all all' : List StoredDetection)
    (d : StoredDetection) (hperm : List.Perm all (d :: all'))
    (p : StoredDetection → Bool) (hpd : p d = false) :
    (all.filter p).length = (all'.filter p).length := by
  have h := filter_length_remove all all' d hperm p
  rw [hpd] at h
  simpa using h

theorem filter_length_remove_true (all all' : List StoredDetection)
    (d : StoredDetection) (hperm : List.Perm all (d :: all'))
    (p : StoredDetection → Bool) (hpd : p d = true) :
    (all.filter p).length = (all'.filter p).length + 1 := by
  have h := filter_length_remove all all' d hperm p
  rw [hpd] at h
  simpa using h

theorem symbolConsistent_add (sd : SymbolData) (h : symbolCountsConsistent sd)
    (k : String) (nd : StoredDetection) (hnd : nd.status = "pending") :
    symbolCountsConsistent
      { detectionsByPage := addToPage k nd sd.detectionsByPage
        summary := { sd.summary with
          totalDetections := sd.summary.totalDetections + 1
          pendingCount := sd.summary.pendingCount + 1 } } := by
  obtain ⟨h1, h2, h3, h4, h5⟩ := h
  have hperm := addToPage_perm k nd sd.detectionsByPage
  have hlen : (allDetections (addToPage k nd sd.detectionsByPage)).length
      = (allDetections sd.detectionsByPage).length + 1 := by
    simpa using hperm.length_eq
  have hacc := filter_length_remove_false _ _ nd hperm
    (fun d => d.status = "accepted") (by simp only [hnd]; decide)
  have hrej := filter_length_remove_false _ _ nd hperm
    (fun d => d.status = "rejected") (by simp only [hnd]; decide)
  have hmod := filter_length_remove_false _ _ nd hperm
    (fun d => d.status = "modified") (by simp only [hnd]; decide)
  have hpen := filter_length_remove_true _ _ nd hperm
    (fun d => !(d.status = "accepted" || d.status = "rejected" || d.status = "modified"))
    (by simp only [hnd]; decide)
  simp only [symbolCountsConsistent, recalcSymbolSummary] at h1 h2 h3 h4 h5 ⊢
  refine ⟨?_, ?_, ?_, ?_, ?_⟩ <;> omega

theorem symbolConsistent_delete (sd : SymbolData) (h : symbolCountsConsistent sd)
    (detId : String) (d : StoredDetection)
    (dbp' : List (String × List StoredDetection))
    (hrem : removeFromPages detId sd.detectionsByPage = some (d, dbp'))
    (hst : d.status = "pending" ∨ d.status = "accepted" ∨ d.status = "rejected") :
    symbolCountsConsistent
      { detectionsByPage := dbp', summary := deleteAdjust sd.summary d.status } := by
  obtain ⟨h1, h2, h3, h4, h5⟩ := h
  obtain ⟨-, hperm⟩ := removeFromPages_spec detId sd.detectionsByPage d dbp' hrem
  have hlen : (allDetections sd.detectionsByPage).length
      = (allDetections dbp').length + 1 := by
    simpa using hperm.length_eq
  rcases hst with hs | hs | hs
  · have hacc := filter_length_remove_false _ _ d hperm
      (fun d => d.status = "accepted") (by simp only [hs]; decide)
    have hrej := filter_length_remove_false _ _ d hperm
      (fun d => d.status = "rejected") (by simp only [hs]; decide)
    have hmod := filter_length_remove_false _ _ d hperm
      (fun d => d.status = "modified") (by simp only [hs]; decide)
    have hpen := filter_length_remove_true _ _ d hperm
      (fun d => !(d.status = "accepted" || d.status = "rejected" || d.status = "modified"))
      (by simp only [hs]; decide)
    have hDA : deleteAdjust sd.summary d.status =
        { sd.summary with totalDetections := sd.summary.totalDetections - 1
                          pendingCount := sd.summary.pendingCount - 1 } := by
      simp only [deleteAdjust, hs]
      rw [if_pos trivial]
    simp only [symbolCountsConsistent, recalcSymbolSummary, hDA]
      at h1 h2 h3 h4 h5 ⊢
    refine ⟨?_, ?_, ?_, ?_, ?_⟩ <;> omega
  · have hacc := filter_length_remove_true _ _ d hperm
      (fun d => d.status = "accepted") (by simp only [hs]; decide)
    have hrej := filter_length_remove_false _ _ d hperm
      (fun d => d.status = "rejected") (by simp only [hs]; decide)
    have hmod := filter_length_remove_false _ _ d hperm
      (fun d => d.status = "modified") (by simp only [hs]; decide)
    have hpen := filter_length_remove_false _ _ d hperm
      (fun d => !(d.status = "accepted" || d.status = "rejected" || d.status = "modified"))
      (by simp only [hs]; decide)
    have hDA : deleteAdjust sd.summary d.status =
        { sd.summary with totalDetections := sd.summary.totalDetections - 1
                          acceptedCount := sd.summary.acceptedCount - 1 } := by
      simp only [deleteAdjust, hs]
      rw [if_neg (show ¬("accepted" : String) = "pending" by decide), if_pos trivial]
    simp only [symbolCountsConsistent, recalcSymbolSummary, hDA]
      at h1 h2 h3 h4 h5 ⊢
    refine ⟨?_, ?_, ?_, ?_, ?_⟩ <;> omega
  · have hacc := filter_length_remove_false _ _ d hperm
      (fun d => d.status = "accepted") (by simp only [hs]; decide)
    have hrej := filter_length_remove_true _ _ d hperm
      (fun d => d.status = "rejected") (by simp only [hs]; decide)
    have hmod := filter_length_remove_false _ _ d hperm
      (fun d => d.status = "modified") (by simp only [hs]; decide)
    have hpen := filter_length_remove_false _ _ d hperm
      (fun d => !(d.status = "accepted" || d.status = "rejected" || d.status = "modified"))
      (by simp only [hs]; decide)
    have hDA : deleteAdjust sd.summary d.status =
        { sd.summary with totalDetections := sd.summary.totalDetections - 1
                          rejectedCount := sd.summary.rejectedCount - 1 } := by
      simp only [deleteAdjust, hs]
      rw [if_neg (show ¬("rejected" : String) = "pending" by decide),
        if_neg (show ¬("rejected" : String) = "accepted" by decide), if_pos trivial]
    simp only [symbolCountsConsistent, recalcSymbolSummary, hDA]
      at h1 h2 h3 h4 h5 ⊢
    refine ⟨?_, ?_, ?_, ?_, ?_⟩ <;> omega

/-- The status strings of all stored detections, in page order. -/
def statusList (dbp : List (String × List StoredDetection)) : List String :=
  (allDetections dbp).map (fun d => d.status)

theorem filterLengthMapGen {α β : Type} (f : α → β) (l : List α) (p : β → Bool) :
    ((l.map f).filter p).length = (l.filter (fun a => p (f a))).length := by
  induction l with
  | nil => rfl
  | cons a l ih =>
    by_cases h : p (f a) <;>
      simp [List.filter_cons, h, ih]

theorem counts_eq_of_statusList (dbp dbp' : List (String × List StoredDetection))
    (h : statusList dbp' = statusList dbp) :
    (recalcSymbolSummary dbp').totalDetections =
        (recalcSymbolSummary dbp).totalDetections ∧
    (recalcSymbolSummary dbp').acceptedCount =
        (recalcSymbolSummary dbp).acceptedCount ∧
    (recalcSymbolSummary dbp').rejectedCount =
        (recalcSymbolSummary dbp).rejectedCount ∧
    (recalcSymbolSummary dbp').pendingCount =
        (recalcSymbolSummary dbp).pendingCount ∧
    (recalcSymbolSummary dbp').modifiedCount =
        (recalcSymbolSummary dbp).modifiedCount := by
  have hlen : (allDetections dbp').length = (allDetections dbp).length := by
    have := congrArg List.length h
    simpa [statusList] using this
  have hcnt : ∀ p : String → Bool,
      ((allDetections dbp').filter (fun d => p d.status)).length =
        ((allDetections dbp).filter (fun d => p d.status)).length := by
    intro p
    have h1 := filterLengthMapGen (fun d : StoredDetection => d.status)
      (allDetections dbp') p
    have h2 := filterLengthMapGen (fun d : StoredDetection => d.status)
      (allDetections dbp) p
    rw [← h1, ← h2]
    rw [show (allDetections dbp').map (fun d => d.status) = statusList dbp' from rfl,
      show (allDetections dbp).map (fun d => d.status) = statusList dbp from rfl, h]
  refine ⟨?_, ?_, ?_, ?_, ?_⟩
  · simp only [recalcSymbolSummary, hlen]
  · simpa only [recalcSymbolSummary] using
      congrArg Int.ofNat (hcnt (fun s => s = "accepted"))
  · simpa only [recalcSymbolSummary] using
      congrArg Int.ofNat (hcnt (fun s => s = "rejected"))
  · simpa only [recalcSymbolSummary] using
      congrArg Int.ofNat (hcnt (fun s =>
        !(s = "accepted" || s = "rejected" || s = "modified")))
  · simpa only [recalcSymbolSummary] using
      congrArg Int.ofNat (hcnt (fun s => s = "modified"))

theorem updateCoordsInDetList_statuses (detId : String) (pc : PDFCoordinates)
    (ic : ImageCoordinates) (t : ℕ) (l : List StoredDetection) :
    ((updateCoordsInDetList detId pc ic t l).2).map (fun d => d.status) =
      l.map (fun d => d.status) := by
  induction l with
  | nil => rfl
  | cons a as ih =>
    by_cases h : a.detectionId = detId
    · simp [updateCoordsInDetList, h]
    · simp [updateCoordsInDetList, h, ih]

theorem updateCoordsInPages_statusList (detId : String) (pc : PDFCoordinates)
    (ic : ImageCoordinates) (t : ℕ) (dbp : List (String × List StoredDetection)) :
    statusList (updateCoordsInPages detId pc ic t dbp).2 = statusList dbp := by
  simp only [updateCoordsInPages, List.map_map]
  induction dbp with
  | nil => rfl
  | cons p rest ih =>
    simp only [List.map_cons, statusList, allDetections, List.flatMap_cons,
      List.map_append, Function.comp_def] at ih ⊢
    rw [updateCoordsInDetList_statuses, ih]

theorem symbolConsistent_statusPreserved (sd : SymbolData)
    (h : symbolCountsConsistent sd) (dbp' : List (String × List StoredDetection))
    (hst : statusList dbp' = statusList sd.detectionsByPage) :
    symbolCountsConsistent { sd with detectionsByPage := dbp' } := by
  obtain ⟨h1, h2, h3, h4, h5⟩ := h
  obtain ⟨c1, c2, c3, c4, c5⟩ := counts_eq_of_statusList sd.detectionsByPage dbp' hst
  exact ⟨h1.trans c1.symm, h2.trans c2.symm, h3.trans c3.symm,
    h4.trans c4.symm, h5.trans c5.symm⟩

theorem deleteFromSymbols_consistent (detId : String) :
    ∀ (syms syms' : List (String × SymbolData)),
      (∀ p ∈ syms, symbolCountsConsistent p.2) →
      (∀ p ∈ syms, ∀ d ∈ allDetections p.2.detectionsByPage,
        d.detectionId = detId →
        (d.status = "pending" ∨ d.status = "accepted" ∨ d.status = "rejected")) →
      deleteFromSymbols detId syms = some syms' →
      ∀ p ∈ syms', symbolCountsConsistent p.2 := by
  intro syms
  induction syms with
  | nil => intro syms' _ _ h; cases h
  | cons q rest ih =>
    intro syms' hcons hstat h
    rcases q with ⟨sid, sd⟩
    cases hrem : removeFromPages detId sd.detectionsByPage with
    | some r =>
      rcases r with ⟨d0, dbp'⟩
      simp only [deleteFromSymbols, hrem, Option.some.injEq] at h
      subst h
      intro p hp
      rcases List.mem_cons.mp hp with rfl | hm
      · obtain ⟨hid, hperm⟩ := removeFromPages_spec detId sd.detectionsByPage d0 dbp' hrem
        have hd0mem : d0 ∈ allDetections sd.detectionsByPage :=
          hperm.mem_iff.mpr (List.mem_cons_self _ _)
        exact symbolConsistent_delete sd
          (hcons (sid, sd) (List.mem_cons_self _ _)) detId d0 dbp' hrem
          (hstat (sid, sd) (List.mem_cons_self _ _) d0 hd0mem hid)
      · exact hcons p (List.mem_cons_of_mem _ hm)
    | none =>
      simp only [deleteFromSymbols, hrem] at h
      cases hrec : deleteFromSymbols detId rest with
      | none =>
        rw [hrec] at h
        cases h
      | some rest' =>
        rw [hrec] at h
        simp only [Option.map_some', Option.some.injEq] at h
        subst h
        intro p hp
        rcases List.mem_cons.mp hp with rfl | hm
        · exact hcons (sid, sd) (List.mem_cons_self _ _)
        · exact ih rest'
            (fun q hq => hcons q (List.mem_cons_of_mem _ hq))
            (fun q hq => hstat q (List.mem_cons_of_mem _ hq))
            hrec p hm

theorem updateCoordsInSymbols_consistent (detId : String) (pc : PDFCoordinates)
    (ic : ImageCoordinates) (t : ℕ) :
    ∀ (syms syms' : List (String × SymbolData)),
      (∀ p ∈ syms, symbolCountsConsistent p.2) →
      updateCoordsInSymbols detId pc ic t syms = some syms' →
      ∀ p ∈ syms', symbolCountsConsistent p.2 := by
  intro syms
  induction syms with
  | nil => intro syms' _ h; cases h
  | cons q rest ih =>
    intro syms' hcons h
    rcases q with ⟨sid, sd⟩
    by_cases hfound : (updateCoordsInPages detId pc ic t sd.detectionsByPage).1
    · simp only [updateCoordsInSymbols, hfound, if_pos, Option.some.injEq] at h
      subst h
      intro p hp
      rcases List.mem_cons.mp hp with rfl | hm
      · exact symbolConsistent_statusPreserved sd
          (hcons (sid, sd) (List.mem_cons_self _ _)) _
          (updateCoordsInPages_statusList detId pc ic t sd.detectionsByPage)
      · exact hcons p (List.mem_cons_of_mem _ hm)
    · simp only [updateCoordsInSymbols, hfound, Bool.false_eq_true, if_neg,
        not_false_iff] at h
      cases hrec : updateCoordsInSymbols detId pc ic t rest with
      | none =>
        rw [hrec] at h
        cases h
      | some rest' =>
        rw [hrec] at h
        simp only [Option.map_some', Option.some.injEq] at h
        subst h
        intro p hp
        rcases List.mem_cons.mp hp with rfl | hm
        · exact hcons (sid, sd) (List.mem_cons_self _ _)
        · exact ih rest'
            (fun q hq => hcons q (List.mem_cons_of_mem _ hq)) hrec p hm

/-- Extract the payload of a successful storage call. -/
def okOr (e : Except String RunState) (d : RunState) : RunState :=
  match e with
  | .ok r => r
  | .error _ => d

/-- C6 (amended): status updates recompute the per-symbol summary from
scratch, and every editing operation recomputes the run-level status
totals from the per-symbol summaries; `add_user_detection` and
`delete_detection`, however, adjust the per-symbol counts incrementally.
The stored status counts still equal the counts recomputed from the
stored records after status updates, coordinate updates and user
additions, and after deleting a pending/accepted/rejected detection —
but not, in general, after deleting a `modified` detection (see the
counterexample). -/
theorem c6_summary_consistency :
    (∀ (t : ℕ) (us : List DetectionUpdate) (r : RunState),
      (∀ p ∈ r.symbols, symbolCountsConsistent p.2) →
      runCountsConsistent (update_detection_status_run t us r)) ∧
    (∀ (sid : String) (pc : PDFCoordinates) (ic : ImageCoordinates)
        (k : String) (t : ℕ) (nid : String) (r r' : RunState),
      (∀ p ∈ r.symbols, symbolCountsConsistent p.2) →
      add_user_detection_run sid pc ic k t nid r = .ok r' →
      runCountsConsistent r') ∧
    (∀ (detId : String) (pc : PDFCoordinates) (ic : ImageCoordinates)
        (t : ℕ) (r r' : RunState),
      (∀ p ∈ r.symbols, symbolCountsConsistent p.2) →
      update_detection_coordinates_run detId pc ic t r = .ok r' →
      runCountsConsistent r') ∧
    (∀ (detId : String) (r : RunState),
      (∀ p ∈ r.symbols, symbolCountsConsistent p.2) →
      (∀ p ∈ r.symbols, ∀ d ∈ allDetections p.2.detectionsByPage,
        d.detectionId = detId →
        (d.status = "pending" ∨ d.status = "accepted" ∨ d.status = "rejected")) →
      (delete_detection_run detId r).1 = true →
      runCountsConsistent (delete_detection_run detId r).2) := by
  refine ⟨?_, ?_, ?_, ?_⟩
  · intro t us r h
    simp only [update_detection_status_run]
    exact runConsistent_recalc _ (symbols_consistent_after_groups t _ r.symbols h)
  · intro sid pc ic k t nid r r' h hok
    cases hl : r.symbols.lookup sid with
    | none => simp [add_user_detection_run, hl] at hok
    | some sd0 =>
      simp only [add_user_detection_run, hl, Except.ok.injEq] at hok
      subst hok
      apply runConsistent_recalc
      intro p hp
      replace hp : p ∈ updateSymbolData r.symbols sid (fun sd =>
          { detectionsByPage := addToPage k
              ⟨nid, -1, ic, pc, 1, 1, 0, (ic.width, ic.height), "pending",
                true, false, t, none, none, none⟩ sd.detectionsByPage
            summary := { sd.summary with
              totalDetections := sd.summary.totalDetections + 1
              pendingCount := sd.summary.pendingCount + 1 } }) := hp
      rcases mem_updateSymbolData _ _ _ p hp with hmem | ⟨q, hq, rfl⟩
      · exact h p hmem
      · exact symbolConsistent_add q.2 (h q hq) k _ rfl
  · intro detId pc ic t r r' h hok
    cases hs : updateCoordsInSymbols detId pc ic t r.symbols with
    | none => simp [update_detection_coordinates_run, hs] at hok
    | some syms' =>
      simp only [update_detection_coordinates_run, hs, Except.ok.injEq] at hok
      subst hok
      exact runConsistent_recalc _
        (updateCoordsInSymbols_consistent detId pc ic t r.symbols syms' h hs)
  · intro detId r h hstat hdel
    cases hs : deleteFromSymbols detId r.symbols with
    | none => simp [delete_detection_run, hs] at hdel
    | some syms' =>
      simp only [delete_detection_run, hs]
      exact runConsistent_recalc _
        (deleteFromSymbols_consistent detId r.symbols syms' h hstat hs)

theorem c6_summary_consistency_witness :
    runCountsConsistent
      (update_detection_status_run 3 [⟨"d1", "accept", none, some "me"⟩] rConsistent) ∧
    runCountsConsistent
      (okOr (add_user_detection_run "sym1" ⟨0, 0, 1, 1⟩ ⟨0, 0, 1, 1, 300⟩ "1" 0 "u1"
        rConsistent) rConsistent) ∧
    runCountsConsistent
      (okOr (update_detection_coordinates_run "d1" ⟨0, 0, 1, 1⟩ ⟨0, 0, 1, 1, 300⟩ 5
        rConsistent) rConsistent) ∧
    runCountsConsistent (delete_detection_run "d1" rConsistent).2 := by
  refine ⟨?_, ?_, ?_, ?_⟩
  · exact c6_summary_consistency.1 3 [⟨"d1", "accept", none, some "me"⟩]
      rConsistent (by decide)
  · exact c6_summary_consistency.2.1 "sym1" ⟨0, 0, 1, 1⟩ ⟨0, 0, 1, 1, 300⟩ "1" 0 "u1"
      rConsistent _ (by decide) rfl
  · exact c6_summary_consistency.2.2.1 "d1" ⟨0, 0, 1, 1⟩ ⟨0, 0, 1, 1, 300⟩ 5
      rConsistent _ (by decide) rfl
  · exact c6_summary_consistency.2.2.2 "d1" rConsistent (by decide) (by decide)
      (by decide)

/-- C6 fails as stated: starting from a consistent run, marking the only
detection `modified` (a status update) and then deleting it leaves the
stored per-symbol `modifiedCount` at 1 while a fresh re-scan of the
stored records yields 0 — `delete_detection` adjusts the summary
incrementally and has no decrement branch for the `modified` status. -/
theorem c6_counterexample :
    runCountsConsistent rConsistent ∧
    ((delete_detection_run "d1"
        (update_detection_status_run 0 [⟨"d1", "modify", none, none⟩]
          rConsistent)).2.symbols.map
      (fun p => (p.1, p.2.summary.modifiedCount,
        (recalcSymbolSummary p.2.detectionsByPage).modifiedCount))) =
      [("sym1", 1, 0)] := by
  exact ⟨by decide, by decide⟩

/-! ## Progress ledger (`symbol_detection/detection_progress.py`)

Wall-clock instants are rational seconds passed in as `now`; Python's
`round(x, n)` (round-half-to-even on the scaled value) is `pyRound`.
Insertion-ordered dicts are association lists; updating a key that is
absent leaves the list unchanged, exactly like the code's
`if key in dict:` guards. -/

/-- One entry of `symbolProgress`. -/
structure SymbolProgressEntry where
  status : String
  completedPages : ℕ
  totalDetections : ℕ
  startTime : Option ℚ
  endTime : Option ℚ
deriving Repr, DecidableEq

/-- One entry of `pageProgress`. -/
structure PageProgressEntry where
  completedSymbols : ℕ
  totalDetections : ℕ
  status : String
deriving Repr, DecidableEq

/-- The `progress_data` dict (`totalSymbols`/`totalPages`/`symbolNames`
are read with `.get(..., default)`, so their pre-`start_detection`
absence is modelled by the default values). -/
structure ProgressState where
  runId : String
  status : String
  startTime : ℚ
  endTime : Option ℚ
  currentStep : String
  totalSteps : ℕ
  completedSteps : ℕ
  progressPercent : ℚ
  currentSymbol : Option String
  currentPage : Option ℕ
  estimatedTimeRemaining : Option String
  processingRate : ℚ
  symbolProgress : List (String × SymbolProgressEntry)
  pageProgress : List (String × PageProgressEntry)
  errors : List (ℚ × String)
  warnings : List (ℚ × String)
  lastUpdated : ℚ
  totalSymbols : ℕ
  totalPages : ℕ
  symbolNames : List String
deriving Repr, DecidableEq

/-- Update the entry at a key of an insertion-ordered dict (no-op when
the key is absent). -/
def updAssoc {β : Type} (k : String) (f : β → β) :
    List (String × β) → List (String × β)
  | [] => []
  | p :: rest => if p.1 = k then (p.1, f p.2) :: rest else p :: updAssoc k f rest

/-- Round half to even at the integers (Python's `round`). -/
def roundHalfEven (q : ℚ) : ℤ :=
  let f := ⌊q⌋
  let fr := q - (f : ℚ)
  if fr < 1/2 then f
  else if 1/2 < fr then f + 1
  else if f % 2 = 0 then f else f + 1

/-- Python `round(x, nd)`. -/
def pyRound (q : ℚ) (nd : ℕ) : ℚ :=
  (roundHalfEven (q * 10 ^ nd) : ℚ) / 10 ^ nd

/-- `DetectionProgress._format_duration` (durations passed in are
nonnegative, so `int()`/`//`/`%` all floor). -/
def format_duration (seconds : ℚ) : String :=
  if seconds < 60 then toString (pyInt seconds) ++ "s"
  else if seconds < 3600 then
    let minutes := ⌊seconds / 60⌋
    let secs := ⌊seconds⌋ - 60 * ⌊seconds / 60⌋
    toString minutes ++ "m " ++ toString secs ++ "s"
  else
    let hours := ⌊seconds / 3600⌋
    let minutes := ⌊(seconds - 3600 * (hours : ℚ)) / 60⌋
    toString hours ++ "h " ++ toString minutes ++ "m"

/-- `DetectionProgress.__init__`'s `progress_data`. -/
def initProgress (run_id : String) (now : ℚ) : ProgressState :=
  { runId := run_id, status := "initializing", startTime := now
    endTime := none, currentStep := "Initializing detection process..."
    totalSteps := 0, completedSteps := 0, progressPercent := 0
    currentSymbol := none, currentPage := none
    estimatedTimeRemaining := none, processingRate := 0
    symbolProgress := [], pageProgress := [], errors := [], warnings := []
    lastUpdated := now, totalSymbols := 0, totalPages := 0, symbolNames := [] }

/-- `DetectionProgress.start_detection` (it does not touch
`lastUpdated`: the code calls no `_update_timestamps` here). -/
def start_detection (total_symbols total_pages : ℕ)
    (symbol_names : List String) (s : ProgressState) : ProgressState :=
  { s with
    status := "running"
    totalSteps := total_symbols * total_pages
    totalSymbols := total_symbols
    totalPages := total_pages
    currentStep := "Starting detection for " ++ toString total_symbols ++
      " symbols across " ++ toString total_pages ++ " pages..."
    symbolNames := symbol_names
    symbolProgress :=
      if symbol_names.isEmpty then s.symbolProgress
      else symbol_names.map (fun name =>
        (name, { status := "pending", completedPages := 0, totalDetections := 0
                 startTime := none, endTime := none }))
    pageProgress := (List.range total_pages).map (fun i =>
      (toString (i + 1),
        { completedSymbols := 0, totalDetections := 0, status := "pending" })) }

/-- `DetectionProgress.start_symbol_processing`. -/
def start_symbol_processing (symbol_name : String) (symbol_index total_symbols : ℕ)
    (now : ℚ) (s : ProgressState) : ProgressState :=
  { s with
    currentSymbol := some symbol_name
    currentPage := none
    currentStep := "Processing symbol " ++ toString (symbol_index + 1) ++ "/" ++
      toString total_symbols ++ ": " ++ symbol_name
    symbolProgress := updAssoc symbol_name
      (fun e => { e with status := "processing", startTime := some now })
      s.symbolProgress
    lastUpdated := now }

/-- `DetectionProgress.update_page_progress`. -/
def update_page_progress (page_num detections_found total_pages : ℕ)
    (now : ℚ) (s : ProgressState) : ProgressState :=
  { s with
    currentPage := some page_num
    currentStep := "Page " ++ toString page_num ++ "/" ++ toString total_pages ++
      " - Found " ++ toString detections_found ++ " detections"
    pageProgress := updAssoc (toString page_num)
      (fun e =>
        let e1 := { e with completedSymbols := e.completedSymbols + 1
                           totalDetections := e.totalDetections + detections_found }
        if s.totalSymbols ≤ e1.completedSymbols then { e1 with status := "completed" }
        else e1)
      s.pageProgress
    symbolProgress :=
      match s.currentSymbol with
      | some name => updAssoc name
          (fun e => { e with completedPages := e.completedPages + 1
                             totalDetections := e.totalDetections + detections_found })
          s.symbolProgress
      | none => s.symbolProgress
    lastUpdated := now }

/-- `DetectionProgress._calculate_progress`. -/
def calculate_progress (now : ℚ) (s : ProgressState) : ProgressState :=
  if 0 < s.totalSteps then
    let pct := pyRound ((s.completedSteps : ℚ) / (s.totalSteps : ℚ) * 100) 2
    let s1 := { s with progressPercent := pct }
    if 0 < s1.completedSteps then
      let elapsed := now - s1.startTime
      if 0 < elapsed then
        let steps_per_second := (s1.completedSteps : ℚ) / elapsed
        let s2 := { s1 with processingRate := pyRound steps_per_second 4 }
        let remaining := (s1.totalSteps : ℚ) - (s1.completedSteps : ℚ)
        if 0 < steps_per_second then
          let eta := format_duration (remaining / steps_per_second)
          { s2 with estimatedTimeRemaining := some eta }
        else
          { s2 with estimatedTimeRemaining := some "Calculating..." }
      else s1
    else s1
  else s

/-- `DetectionProgress.complete_step`. -/
def complete_step (now : ℚ) (s : ProgressState) : ProgressState :=
  { calculate_progress now { s with completedSteps := s.completedSteps + 1 } with
    lastUpdated := now }

/-- `DetectionProgress.add_error` (bounded to the last 50 entries). -/
def add_error (msg : String) (now : ℚ) (s : ProgressState) : ProgressState :=
  let errs := s.errors ++ [(now, msg)]
  { s with
    errors := if 50 < errs.length then errs.drop (errs.length - 50) else errs
    lastUpdated := now }

/-- `DetectionProgress.add_warning`. -/
def add_warning (msg : String) (now : ℚ) (s : ProgressState) : ProgressState :=
  let ws := s.warnings ++ [(now, msg)]
  { s with
    warnings := if 50 < ws.length then ws.drop (ws.length - 50) else ws
    lastUpdated := now }

/-- C8 (amended): only `complete_step` recomputes `progressPercent`
(`round(completedSteps/totalSteps*100, 2)`), the processing rate and the
ETA (whenever a step has completed and time has elapsed, the ETA is the
formatted `remainingSteps / (completedSteps/elapsed)`, never
"Calculating..."); the other mutating calls (`start_detection`,
`start_symbol_processing`, `update_page_progress`, `add_error`,
`add_warning`) leave all three fields unchanged, and before the first
completed step the ETA keeps its initial `None`. -/
theorem c8_progress_recompute :
    (∀ (now : ℚ) (s : ProgressState), 0 < s.totalSteps → s.startTime < now →
      (complete_step now s).progressPercent =
        pyRound (((s.completedSteps + 1 : ℕ) : ℚ) / (s.totalSteps : ℚ) * 100) 2 ∧
      (complete_step now s).processingRate =
        pyRound (((s.completedSteps + 1 : ℕ) : ℚ) / (now - s.startTime)) 4 ∧
      (complete_step now s).estimatedTimeRemaining =
        some (format_duration
          (((s.totalSteps : ℚ) - ((s.completedSteps + 1 : ℕ) : ℚ)) /
            (((s.completedSteps + 1 : ℕ) : ℚ) / (now - s.startTime))))) ∧
    (∀ (a b : ℕ) (ns : List String) (s : ProgressState),
      (start_detection a b ns s).progressPercent = s.progressPercent ∧
      (start_detection a b ns s).processingRate = s.processingRate ∧
      (start_detection a b ns s).estimatedTimeRemaining = s.estimatedTimeRemaining) ∧
    (∀ (n : String) (i tot : ℕ) (now : ℚ) (s : ProgressState),
      (start_symbol_processing n i tot now s).progressPercent = s.progressPercent ∧
      (start_symbol_processing n i tot now s).processingRate = s.processingRate ∧
      (start_symbol_processing n i tot now s).estimatedTimeRemaining =
        s.estimatedTimeRemaining) ∧
    (∀ (p f tp : ℕ) (now : ℚ) (s : ProgressState),
      (update_page_progress p f tp now s).progressPercent = s.progressPercent ∧
      (update_page_progress p f tp now s).processingRate = s.processingRate ∧
      (update_page_progress p f tp now s).estimatedTimeRemaining =
        s.estimatedTimeRemaining) ∧
    (∀ (m : String) (now : ℚ) (s : ProgressState),
      (add_error m now s).progressPercent = s.progressPercent ∧
      (add_error m now s).processingRate = s.processingRate ∧
      (add_error m now s).estimatedTimeRemaining = s.estimatedTimeRemaining) ∧
    (∀ (m : String) (now : ℚ) (s : ProgressState),
      (add_warning m now s).progressPercent = s.progressPercent ∧
      (add_warning m now s).processingRate = s.processingRate ∧
      (add_warning m now s).estimatedTimeRemaining = s.estimatedTimeRemaining) ∧
    (∀ (rid : String) (now : ℚ),
      (initProgress rid now).estimatedTimeRemaining = none) := by
  refine ⟨?_, ?_, ?_, ?_, ?_, ?_, ?_⟩
  · intro now s ht helapsed
    have h1 : 0 < s.completedSteps + 1 := Nat.succ_pos _
    have h2 : (0 : ℚ) < now - s.startTime := by linarith
    have h3 : 0 < ((s.completedSteps + 1 : ℕ) : ℚ) / (now - s.startTime) := by
      positivity
    refine ⟨?_, ?_, ?_⟩ <;>
      simp only [complete_step, calculate_progress, ht, h1, h2, h3, if_true,
        if_pos]
  · exact fun a b ns s => ⟨rfl, rfl, rfl⟩
  · exact fun n i tot now s => ⟨rfl, rfl, rfl⟩
  · exact fun p f tp now s => ⟨rfl, rfl, rfl⟩
  · exact fun m now s => ⟨rfl, rfl, rfl⟩
  · exact fun m now s => ⟨rfl, rfl, rfl⟩
  · exact fun rid now => rfl

/-- A ledger right after `start_detection` for 2 symbols × 1 page. -/
def sProgW : ProgressState := start_detection 2 1 ["a", "b"] (initProgress "r" 0)

theorem c8_progress_recompute_witness :
    0 < sProgW.totalSteps ∧ sProgW.startTime < 4 ∧
    ((complete_step 4 sProgW).progressPercent =
        pyRound (((sProgW.completedSteps + 1 : ℕ) : ℚ) / (sProgW.totalSteps : ℚ) * 100) 2 ∧
      (complete_step 4 sProgW).processingRate =
        pyRound (((sProgW.completedSteps + 1 : ℕ) : ℚ) / (4 - sProgW.startTime)) 4 ∧
      (complete_step 4 sProgW).estimatedTimeRemaining =
        some (format_duration
          (((sProgW.totalSteps : ℚ) - ((sProgW.completedSteps + 1 : ℕ) : ℚ)) /
            (((sProgW.completedSteps + 1 : ℕ) : ℚ) / (4 - sProgW.startTime))))) :=
  ⟨by decide,
   by norm_num [sProgW, start_detection, initProgress],
   c8_progress_recompute.1 4 sProgW (by decide)
     (by norm_num [sProgW, start_detection, initProgress])⟩

/-- C8 fails as stated: `add_error` is a mutating call made while no
step has completed, yet the ETA field afterwards is still `None` (its
initial value), not "Calculating..." — only `complete_step` ever
recomputes the progress fields. -/
theorem c8_counterexample :
    (add_error "boom" 5 (start_detection 1 1 ["a"]
        (initProgress "r" 0))).completedSteps = 0 ∧
    (add_error "boom" 5 (start_detection 1 1 ["a"]
        (initProgress "r" 0))).estimatedTimeRemaining = none ∧
    (none : Option String) ≠ some "Calculating..." :=
  ⟨rfl, rfl, by decide⟩

/-! ## Coordinator (`symbol_detection/detection_coordinator.py`)

`run_detection`'s environment interactions are explicit inputs: each
fallible step (symbols-metadata load, page-metadata load, PDF open,
per-symbol template load, per-page detection, the
`complete_detection_run` storage write) is given as its outcome, and the
result records the observable effects: the returned value or propagated
exception, whether a run record was created and its final status, the
progress ledger's status and recorded errors, and whether the PDF handle
was opened and closed. -/

/-- One symbol to process: its metadata plus the outcome of loading its
template and of detecting it on each page (pages are numbered 1..N). -/
structure SymbolInput where
  id : String
  name : String
  templateLoad : Except String Unit
  pageOutcome : ℕ → Except String ℕ

/-- The environment of one `run_detection` call. -/
structure CoordinatorInput where
  symbolsMetadata : Option (List SymbolInput)
  symbolIds : Option (List String)
  pageMetadataLoad : Except String ℕ
  pdfLoad : Except String Unit
  completeRun : Except String Unit

/-- Observable effects of one `run_detection` call. -/
structure CoordinatorResult where
  outcome : Except String String
  runCreated : Bool
  runStatus : Option String
  progressStatus : Option String
  progressErrors : List String
  docOpened : Bool
  docClosed : Bool
deriving Repr

/-- The run-level errors recorded while processing one symbol: a
template-load failure aborts the symbol with one error (the outer
per-symbol `except`); otherwise each failing page is recorded and
skipped (the inner per-page `except`) while the remaining pages are
processed. -/
def symbolErrors (totalPages : ℕ) (s : SymbolInput) : List String :=
  match s.templateLoad with
  | .error e => ["Failed to process symbol " ++ s.name ++ ": " ++ e]
  | .ok _ =>
    (List.range totalPages).filterMap (fun i =>
      match s.pageOutcome (i + 1) with
      | .error e => some ("Failed to process page " ++ toString (i + 1) ++
          " for symbol '" ++ s.name ++ "': " ++ e)
      | .ok _ => none)

/-- A `run_detection` exit before any run record exists (steps 1–2). -/
def noRunResult (e : String) : CoordinatorResult :=
  { outcome := .error e, runCreated := false, runStatus := none
    progressStatus := none, progressErrors := [], docOpened := false
    docClosed := false }

/-- `DetectionCoordinator.run_detection`.

* Steps 1–2 (symbol metadata, filtering, page metadata) raise before the
  run record is created.
* A PDF-open failure inside the `try` is fatal: the error is recorded,
  progress and the stored run are marked failed, and the exception is
  re-raised; no handle was opened.
* Per-symbol/per-page failures only accumulate progress errors; the run
  then completes: progress and the stored run are marked completed and
  the handle is closed — `pdf_document.close()` runs only on this path,
  after `storage.complete_detection_run` succeeds.
* When `complete_detection_run` raises (e.g. the metadata write fails),
  the `except` block marks progress failed and calls
  `complete_detection_run` again, which raises again and propagates; the
  handle is never closed and the stored status remains `initializing`. -/
def run_detection (inp : CoordinatorInput) : CoordinatorResult :=
  match inp.symbolsMetadata with
  | none => noRunResult "No symbol templates found - run Symbol Annotation first"
  | some allSymbols =>
    let symbols_to_process :=
      match inp.symbolIds with
      | some ids => ids.filterMap (fun sid =>
          allSymbols.find? (fun s : SymbolInput => s.id = sid))
      | none => allSymbols
    if inp.symbolIds.isSome ∧ symbols_to_process.isEmpty then
      noRunResult "No valid symbols found for IDs"
    else
      match inp.pageMetadataLoad with
      | .error e => noRunResult e
      | .ok totalPages =>
        if totalPages = 0 then noRunResult "No page metadata found"
        else
          match inp.pdfLoad with
          | .error e =>
            let msg := "Detection run failed: " ++ e
            match inp.completeRun with
            | .ok _ =>
              { outcome := .error e, runCreated := true
                runStatus := some "failed", progressStatus := some "failed"
                progressErrors := [msg], docOpened := false, docClosed := false }
            | .error e2 =>
              { outcome := .error e2, runCreated := true
                runStatus := some "initializing", progressStatus := some "failed"
                progressErrors := [msg], docOpened := false, docClosed := false }
          | .ok _ =>
            let errs := symbols_to_process.flatMap (symbolErrors totalPages)
            match inp.completeRun with
            | .ok _ =>
              { outcome := .ok "run", runCreated := true
                runStatus := some "completed", progressStatus := some "completed"
                progressErrors := errs, docOpened := true, docClosed := true }
            | .error e2 =>
              { outcome := .error e2, runCreated := true
                runStatus := some "initializing", progressStatus := some "failed"
                progressErrors := errs ++ ["Detection run failed: " ++ e2]
                docOpened := true, docClosed := false }

/-- C7 (amended): a failure while processing one page for one symbol is
recorded as a run-level error and only that page is skipped — the run
continues and completes; a failure to open the source document is fatal
and marks the run `failed`; a failure to load the page geometry is also
fatal, but it aborts `run_detection` before the run record is created,
so no run is ever marked `failed`. -/
theorem c7_failure_handling :
    (∀ (inp : CoordinatorInput) (syms : List SymbolInput) (n : ℕ),
      inp.symbolsMetadata = some syms → inp.symbolIds = none →
      inp.pageMetadataLoad = .ok n → n ≠ 0 →
      inp.pdfLoad = .ok () → inp.completeRun = .ok () →
      (run_detection inp).outcome = .ok "run" ∧
      (run_detection inp).runStatus = some "completed" ∧
      (run_detection inp).progressStatus = some "completed" ∧
      (run_detection inp).progressErrors = syms.flatMap (symbolErrors n)) ∧
    (∀ (inp : CoordinatorInput) (syms : List SymbolInput) (n : ℕ) (e : String),
      inp.symbolsMetadata = some syms → inp.symbolIds = none →
      inp.pageMetadataLoad = .ok n → n ≠ 0 →
      inp.pdfLoad = .error e → inp.completeRun = .ok () →
      (run_detection inp).outcome = .error e ∧
      (run_detection inp).runStatus = some "failed" ∧
      (run_detection inp).progressStatus = some "failed") ∧
    (∀ (inp : CoordinatorInput) (syms : List SymbolInput) (e : String),
      inp.symbolsMetadata = some syms → inp.symbolIds = none →
      inp.pageMetadataLoad = .error e →
      (run_detection inp).outcome = .error e ∧
      (run_detection inp).runCreated = false ∧
      (run_detection inp).runStatus = none) := by
  refine ⟨?_, ?_, ?_⟩
  · intro inp syms n hm hids hpm hn hpdf hcomp
    simp [run_detection, hm, hids, hpm, hpdf, hcomp, hn]
  · intro inp syms n e hm hids hpm hn hpdf hcomp
    simp [run_detection, hm, hids, hpm, hpdf, hcomp, hn]
  · intro inp syms e hm hids hpm
    simp [run_detection, hm, hids, hpm, noRunResult]

/-- A symbol whose detection fails on page 1 and succeeds elsewhere. -/
def symA : SymbolInput :=
  { id := "s1", name := "A", templateLoad := .ok ()
    pageOutcome := fun i => if i = 1 then .error "render failed" else .ok 0 }

/-- Two pages, page 1 failing for the only symbol; everything else
succeeds. -/
def inpPartial : CoordinatorInput :=
  { symbolsMetadata := some [symA], symbolIds := none
    pageMetadataLoad := .ok 2, pdfLoad := .ok (), completeRun := .ok () }

theorem c7_failure_handling_witness :
    (run_detection inpPartial).outcome = .ok "run" ∧
    (run_detection inpPartial).runStatus = some "completed" ∧
    (run_detection inpPartial).progressStatus = some "completed" ∧
    (run_detection inpPartial).progressErrors = [symA].flatMap (symbolErrors 2) ∧
    (run_detection inpPartial).progressErrors =
      ["Failed to process page 1 for symbol 'A': render failed"] := by
  have h := c7_failure_handling.1 inpPartial [symA] 2 rfl rfl rfl
    (by decide) rfl rfl
  exact ⟨h.1, h.2.1, h.2.2.1, h.2.2.2, rfl⟩

/-- Page-geometry load failure: the call raises before the run record
exists. -/
def inpGeomFail : CoordinatorInput :=
  { symbolsMetadata := some [symA], symbolIds := none
    pageMetadataLoad := .error "Page metadata not found"
    pdfLoad := .ok (), completeRun := .ok () }

/-- C7 fails as stated: a page-geometry load failure is fatal, but it
happens before `create_detection_run`, so no run exists and none is
transitioned to `failed`; the exception simply propagates. -/
theorem c7_counterexample :
    (run_detection inpGeomFail).outcome = .error "Page metadata not found" ∧
    (run_detection inpGeomFail).runCreated = false ∧
    (run_detection inpGeomFail).runStatus = none ∧
    (run_detection inpGeomFail).runStatus ≠ some "failed" :=
  ⟨rfl, rfl, rfl, by
    rw [show (run_detection inpGeomFail).runStatus = none from rfl]
    simp⟩

/-- Everything succeeds until the final `complete_detection_run` write,
which raises. -/
def inpLeak : CoordinatorInput :=
  { symbolsMetadata := some [symA], symbolIds := none
    pageMetadataLoad := .ok 1, pdfLoad := .ok ()
    completeRun := .error "disk full" }

/-- C9: on the fatal path that re-raises after the document was opened
(here: `complete_detection_run` failing at the end of the run), the
handle is never closed — `pdf_document.close()` is only reached on the
success path and `run_detection` has no `finally`; on the success path
the handle is closed. -/
theorem c9_handle_leak :
    (run_detection inpLeak).docOpened = true ∧
    (run_detection inpLeak).docClosed = false ∧
    (run_detection inpLeak).outcome = .error "disk full" ∧
    (run_detection inpPartial).docOpened = true ∧
    (run_detection inpPartial).docClosed = true :=
  ⟨rfl, rfl, rfl, rfl, rfl⟩

end Timbergem
